import Mathlib

/-!
Verification development for the advance-emu repository (an in-progress
cycle-accurate ARM handheld emulator). The Rust sources are shallowly
embedded: pure functions become Lean functions, machine integers become
`Nat` with explicit `% 2^w` / masking where overflow matters, fallible
code (panics, `unimplemented!`, `assert!`, out-of-bounds slice indexing)
returns `Option`, and stateful code is explicit state passing on record
types. Source file and line references are given next to each definition.
-/

/-! ## Bit helpers (src/util.rs, the `bit!` macro)

`bit!(x[lo:hi])` expands to `(x >> lo) & ((1 << (hi - lo + 1)) - 1)` and
`bit!(x[n])` to `(x >> n) & 1`. -/

/-- Inclusive bit-range extraction, `bit!(x[lo:hi])`. -/
def bits (x lo hi : ℕ) : ℕ := (x >>> lo) &&& ((1 <<< (hi - lo + 1)) - 1)

/-- Single-bit extraction, `bit!(x[n])`. -/
def bit1 (x n : ℕ) : ℕ := (x >>> n) &&& 1

/-! ## Bus (src/system.rs) -/

inductive AccessWidth where
  | bit8
  | bit16
  | bit32
deriving DecidableEq, Repr

inductive OperationType where
  | read (isInstruction : Bool)
  | write
deriving DecidableEq, Repr

structure MemoryRequest where
  address : ℕ
  width : AccessWidth
  op : OperationType
  seq : Bool
deriving DecidableEq, Repr

structure Bus where
  request : Option MemoryRequest
  busy : Bool
  dmaActive : Bool
  data : ℕ
deriving DecidableEq, Repr

/-- Bus::make_request (src/system.rs:38): unconditionally stores the request. -/
def Bus.make_request (b : Bus) (request : MemoryRequest) : Bus :=
  { b with request := some request }

/-- Bus::should_cpu_wait (src/system.rs:43). -/
def Bus.should_cpu_wait (b : Bus) : Bool := b.busy || b.dmaActive

/-- Bus::should_dma_wait (src/system.rs:48). -/
def Bus.should_dma_wait (b : Bus) : Bool := b.busy

/-- Default for Bus (src/system.rs:53-62). -/
def Bus.init : Bus := { request := none, busy := false, dmaActive := false, data := 0xFFFFFFFF }

/-- Modelled from the spec: `make_request` as the specification describes it,
"asserts that no request is already outstanding" (abort modelled as `none`).
This definition follows the spec's words, for comparison with the source's
`Bus.make_request` above, which has no such assertion. -/
def spec_make_request (b : Bus) (request : MemoryRequest) : Option Bus :=
  if b.request.isSome then none else some { b with request := some request }

/-! ## CPSR (src/cpu/mod.rs:16-40)

The `flag_field!` macro generates a getter reading one bit and a setter
or-ing / and-not-ing that bit. The source instantiates it with
negative=31, zero=30, carry=29, overflow=29 (carry and overflow share
bit 29 in the source). -/

structure Cpsr where
  val : ℕ
deriving DecidableEq, Repr

/-- Cpsr negative getter, bit 31. -/
def Cpsr.negative (c : Cpsr) : Bool := c.val &&& (1 <<< 31) != 0

/-- Cpsr negative setter, bit 31. -/
def Cpsr.set_negative (c : Cpsr) (b : Bool) : Cpsr :=
  if b then ⟨c.val ||| (1 <<< 31)⟩ else ⟨c.val &&& (0xFFFFFFFF ^^^ (1 <<< 31))⟩

/-- Cpsr zero getter, bit 30. -/
def Cpsr.zero (c : Cpsr) : Bool := c.val &&& (1 <<< 30) != 0

/-- Cpsr zero setter, bit 30. -/
def Cpsr.set_zero (c : Cpsr) (b : Bool) : Cpsr :=
  if b then ⟨c.val ||| (1 <<< 30)⟩ else ⟨c.val &&& (0xFFFFFFFF ^^^ (1 <<< 30))⟩

/-- Cpsr carry getter, bit 29 (src/cpu/mod.rs:38). -/
def Cpsr.carry (c : Cpsr) : Bool := c.val &&& (1 <<< 29) != 0

/-- Cpsr carry setter, bit 29 (src/cpu/mod.rs:38). -/
def Cpsr.set_carry (c : Cpsr) (b : Bool) : Cpsr :=
  if b then ⟨c.val ||| (1 <<< 29)⟩ else ⟨c.val &&& (0xFFFFFFFF ^^^ (1 <<< 29))⟩

/-- Cpsr overflow getter: the source also uses bit 29 (src/cpu/mod.rs:39). -/
def Cpsr.overflow (c : Cpsr) : Bool := c.val &&& (1 <<< 29) != 0

/-- Cpsr overflow setter: the source also uses bit 29 (src/cpu/mod.rs:39). -/
def Cpsr.set_overflow (c : Cpsr) (b : Bool) : Cpsr :=
  if b then ⟨c.val ||| (1 <<< 29)⟩ else ⟨c.val &&& (0xFFFFFFFF ^^^ (1 <<< 29))⟩

/-! ## ARM instruction decoder (src/cpu/decode.rs) -/

inductive DecodedArmInstruction where
  | dataProcessingImmediate (cond opcode : ℕ) (s : Bool) (rn rd rotate imm : ℕ)
  | loadStoreImmOffset (cond : ℕ) (indexingP immAdd byte indexingW load : Bool) (rn rd imm : ℕ)
  | loadStoreHalfImmOffset (cond : ℕ) (indexingP immAdd indexingW load : Bool)
      (rn rd immHigh immLow : ℕ)
  | loadStoreMultiple (cond : ℕ) (indexingP upwards useBankedOrSpsr indexingW load : Bool)
      (rn regs : ℕ)
  | branchImm (cond : ℕ) (link : Bool) (offset : ℕ)
  | branchAndExchangeReg (cond rm : ℕ)
  | moveToStatusReg (cond : ℕ) (saved : Bool) (fieldMask rm : ℕ)
  | undefinedInstruction
  | unknownInstruction
deriving DecidableEq, Repr

/-- Recursive worker for `testPattern`, walking the reversed format from the
least-significant bit (src/cpu/decode.rs:71-85). -/
def testPatternGo : ℕ → List Char → Bool
  | _, [] => true
  | instr, c :: rest =>
    if c = '_' then testPatternGo instr rest
    else if c = '0' then (instr &&& 1 == 0) && testPatternGo (instr >>> 1) rest
    else if c = '1' then (instr &&& 1 == 1) && testPatternGo (instr >>> 1) rest
    else testPatternGo (instr >>> 1) rest

/-- The `test` helper of src/cpu/decode.rs:71-85: positions where the format
is '0' or '1' must match literally, '_' is skipped, anything else matches
any bit. The source iterates the format bytes in reverse, so the embedding
recurses on the reversed character list. (The source's
`assert_eq!(format.len(), 32 + 3)` holds for all seven patterns below.) -/
def testPattern (instr : ℕ) (format : List Char) : Bool :=
  testPatternGo instr format.reverse

/-- DecodedArmInstruction::decode_arm_instruction (src/cpu/decode.rs:88-179):
the seven bit patterns, tried in source order (BX, MSR, LDRH/STRH, data
processing immediate, LDR/STR, LDM/STM, B/BL); no match decodes to
`unknownInstruction`. -/
def decode_arm_instruction (instr : ℕ) : DecodedArmInstruction :=
  let cond := bits instr 28 31
  if testPattern instr "cccc0001_00101111_11111111_0001mmmm".toList then
    .branchAndExchangeReg cond (bits instr 0 3)
  else if testPattern instr "cccc0001_0R10ffff_11110000_0000mmmm".toList then
    .moveToStatusReg cond (bit1 instr 22 != 0) (bits instr 16 19) (bits instr 0 3)
  else if testPattern instr "cccc000P_U1WLnnnn_ddddhhhh_1011llll".toList then
    .loadStoreHalfImmOffset cond (bit1 instr 24 != 0) (bit1 instr 23 != 0)
      (bit1 instr 21 != 0) (bit1 instr 20 != 0)
      (bits instr 16 19) (bits instr 12 15) (bits instr 8 11) (bits instr 0 3)
  else if testPattern instr "cccc001o_oooSnnnn_ddddrrrr_iiiiiiii".toList then
    .dataProcessingImmediate cond (bits instr 21 24) (bit1 instr 20 != 0)
      (bits instr 16 19) (bits instr 12 15) (bits instr 8 11) (bits instr 0 7)
  else if testPattern instr "cccc010P_UBWLnnnn_ddddiiii_iiiiiiii".toList then
    .loadStoreImmOffset cond (bit1 instr 24 != 0) (bit1 instr 23 != 0) (bit1 instr 22 != 0)
      (bit1 instr 21 != 0) (bit1 instr 20 != 0)
      (bits instr 16 19) (bits instr 12 15) (bits instr 0 11)
  else if testPattern instr "cccc100P_USWLnnnn_rrrrrrrr_rrrrrrrr".toList then
    .loadStoreMultiple cond (bit1 instr 24 != 0) (bit1 instr 23 != 0) (bit1 instr 22 != 0)
      (bit1 instr 21 != 0) (bit1 instr 20 != 0)
      (bits instr 16 19) (bits instr 0 15)
  else if testPattern instr "cccc101L_iiiiiiii_iiiiiiii_iiiiiiii".toList then
    .branchImm cond (bit1 instr 24 != 0) (bits instr 0 23)
  else
    .unknownInstruction

/-! ## CPU pipeline and ALU (src/cpu/mod.rs) -/

inductive ExecuteState where
  | pipelineRefill1
  | pipelineRefill2
  | firstCycle
deriving DecidableEq, Repr

structure ArmCpu where
  regs : ℕ → ℕ
  cpsr : Cpsr
  currentExecuteState : ExecuteState
  fOutInstr : ℕ
  dOutInstr : ℕ

/-- Pointwise update of a register file / byte map. -/
def updFn (f : ℕ → ℕ) (i v : ℕ) : ℕ → ℕ := fun j => if j = i then v else f j

/-- ArmCpu::new (src/cpu/mod.rs:191-200). -/
def ArmCpu.new : ArmCpu :=
  { regs := fun _ => 0
    cpsr := ⟨0⟩
    currentExecuteState := .pipelineRefill1
    fOutInstr := 0xFFFFFFFF
    dOutInstr := 0xFFFFFFFF }

/-- Rust u32 `rotate_right`. -/
def rotate_right32 (x n : ℕ) : ℕ :=
  let k := n % 32
  ((x >>> k) ||| (x <<< (32 - k))) &&& 0xFFFFFFFF

/-- decode_immediate (src/cpu/mod.rs:60-68): rotate the 8-bit immediate right
by `2 * rotate`; the shifter carry-out is bit 31 of the result when
`rotate ≠ 0`, otherwise the incoming carry. -/
def decode_immediate (imm rotate : ℕ) (carryIn : Bool) : ℕ × Bool :=
  let result := rotate_right32 imm (rotate * 2)
  let carryOut := if rotate = 0 then carryIn else bit1 result 31 != 0
  (result, carryOut)

/-- add_has_signed_overflow (src/cpu/mod.rs:70-77). -/
def add_has_signed_overflow (x y r : ℕ) : Bool :=
  ((x ^^^ r) &&& (y ^^^ r)) &&& (1 <<< 31) != 0

/-- add_with_carry (src/cpu/mod.rs:79-87): the u64 sum, its bit 32 as carry
out, and signed overflow of the truncated result. -/
def add_with_carry (op1 op2 : ℕ) (carryIn : Bool) : ℕ × Bool × Bool :=
  let result := op1 + op2 + (if carryIn then 1 else 0)
  (result % 2 ^ 32, result &&& (1 <<< 32) != 0, add_has_signed_overflow op1 op2 (result % 2 ^ 32))

/-- Rust u32 bitwise not. -/
def not32 (x : ℕ) : ℕ := x ^^^ 0xFFFFFFFF

/-- alu_operation (src/cpu/mod.rs:89-188). Returns `none` where the source
panics: the internal `assert_eq!` cross-checks in the SUB/RSB arms (which
can in fact fail, because `set_carry` and `set_overflow` clobber the same
CPSR bit) and the `unreachable!` arm for opcodes ≥ 16. -/
def alu_operation (opcode op1 op2 : ℕ) (shifterCarry : Bool) (cpsr : Cpsr) :
    Option (ℕ × Cpsr) := do
  let (result, cpsr) ←
    match opcode with
    | 0 | 8 => some (op1 &&& op2, cpsr.set_carry shifterCarry)
    | 1 | 9 => some (op1 ^^^ op2, cpsr.set_carry shifterCarry)
    | 2 | 10 => do
      let x := (op1 + 2 ^ 32 - op2 % 2 ^ 32) % 2 ^ 32
      let notC := decide (op1 % 2 ^ 32 < op2 % 2 ^ 32)
      let cpsr := cpsr.set_carry !notC
      let cpsr := cpsr.set_overflow (add_has_signed_overflow op1 op2 x)
      let (x2, c2, v2) := add_with_carry op1 (not32 op2) true
      if x = x2 ∧ cpsr.carry = c2 ∧ cpsr.overflow = v2 then some (x, cpsr) else none
    | 3 => do
      let x := (op2 + 2 ^ 32 - op1 % 2 ^ 32) % 2 ^ 32
      let notC := decide (op2 % 2 ^ 32 < op1 % 2 ^ 32)
      let cpsr := cpsr.set_carry !notC
      let cpsr := cpsr.set_overflow (add_has_signed_overflow op2 op1 x)
      let (x2, c2, v2) := add_with_carry op2 (not32 op1) true
      if x = x2 ∧ cpsr.carry = c2 ∧ cpsr.overflow = v2 then some (x, cpsr) else none
    | 4 | 11 =>
      let x := (op1 + op2) % 2 ^ 32
      let c := decide (2 ^ 32 ≤ op1 + op2)
      some (x, (cpsr.set_carry c).set_overflow (add_has_signed_overflow op1 op2 x))
    | 5 =>
      let (x, c, v) := add_with_carry op1 op2 cpsr.carry
      some (x, (cpsr.set_carry c).set_overflow v)
    | 6 =>
      let (x, c, v) := add_with_carry op1 (not32 op2) cpsr.carry
      some (x, (cpsr.set_carry c).set_overflow v)
    | 7 =>
      let (x, c, v) := add_with_carry op2 (not32 op1) cpsr.carry
      some (x, (cpsr.set_carry c).set_overflow v)
    | 12 => some (op1 ||| op2, cpsr.set_carry shifterCarry)
    | 13 => some (op2, cpsr.set_carry shifterCarry)
    | 14 => some (op1 &&& not32 op2, cpsr.set_carry shifterCarry)
    | 15 => some (not32 op2 &&& 0xFFFFFFFF, cpsr.set_carry shifterCarry)
    | _ => none
  let cpsr := cpsr.set_negative (bit1 result 31 != 0)
  let cpsr := cpsr.set_zero (result == 0)
  some (result, cpsr)

/-- ArmCpu::step_execute_fsm (src/cpu/mod.rs:210-282). `none` models the
source's `unimplemented!` calls (S-bit handling, PC-destination writes,
and every instruction other than data-processing-immediate and
branch-immediate). The branch arm computes
`regs[PC].wrapping_add((offset * 4) as u32)` with the decoder's raw
unsigned 24-bit offset — no sign extension happens anywhere. -/
def step_execute_fsm (cpu : ArmCpu) (state : ExecuteState) (inInstr : ℕ) :
    Option (ArmCpu × ExecuteState) :=
  match state with
  | .pipelineRefill1 =>
    some ({ cpu with regs := updFn cpu.regs 15 ((cpu.regs 15 + 4) % 2 ^ 32) }, .pipelineRefill2)
  | .pipelineRefill2 =>
    some ({ cpu with regs := updFn cpu.regs 15 ((cpu.regs 15 + 4) % 2 ^ 32) }, .firstCycle)
  | .firstCycle =>
    match decode_arm_instruction inInstr with
    | .dataProcessingImmediate _cond opcode s rn rd rotate imm => do
      let (immValue, immCarry) := decode_immediate imm rotate cpu.cpsr.carry
      let (result, _newCpsr) ← alu_operation opcode (cpu.regs rn) immValue immCarry cpu.cpsr
      if rd = 15 then
        none
      else if s then
        none
      else
        let cpu :=
          match opcode with
          | 8 | 9 | 10 | 11 => cpu
          | _ => { cpu with regs := updFn cpu.regs rd result }
        some (cpu, .firstCycle)
    | .branchImm _cond link offset =>
      let cpu :=
        if link then { cpu with regs := updFn cpu.regs 14 ((cpu.regs 15 + 2 ^ 32 - 4) % 2 ^ 32) }
        else cpu
      let cpu := { cpu with regs := updFn cpu.regs 15 ((cpu.regs 15 + offset * 4) % 2 ^ 32) }
      some (cpu, .pipelineRefill1)
    | _ => none

/-- ArmCpu::bus_operation_for_state (src/cpu/mod.rs:284-297): every state
requests a 32-bit instruction fetch at `regs[PC]`, sequential except right
after a discontinuity (PipelineRefill1). -/
def bus_operation_for_state (cpu : ArmCpu) (state : ExecuteState) : Option MemoryRequest :=
  some
    { address := cpu.regs 15
      width := .bit32
      op := .read true
      seq := state != .pipelineRefill1 }

/-- ArmCpu::step_fetch_or_single_instruction (src/cpu/mod.rs:299-321):
pre-reads the bus data and the decode latch, issues the fetch request,
latches the fetched word into `d_out_instr`, then runs the execute FSM. -/
def step_fetch_or_single_instruction (cpu : ArmCpu) (bus : Bus) : Option (ArmCpu × Bus) := do
  let dInInstr := bus.data
  let eInInstr := cpu.dOutInstr
  let bus :=
    match bus_operation_for_state cpu cpu.currentExecuteState with
    | some request => bus.make_request request
    | none => bus
  let cpu := { cpu with dOutInstr := dInInstr }
  let currentState := cpu.currentExecuteState
  let (cpu, nextState) ← step_execute_fsm cpu currentState eInInstr
  some ({ cpu with currentExecuteState := nextState }, bus)

/-- ArmCpu::step (src/cpu/mod.rs:202-208): a complete no-op while
`should_cpu_wait()` holds. -/
def ArmCpu.step (cpu : ArmCpu) (bus : Bus) : Option (ArmCpu × Bus) :=
  if bus.should_cpu_wait then some (cpu, bus)
  else step_fetch_or_single_instruction cpu bus

/-! ## Memory unit (src/memory.rs)

Byte memories (`bios`, `ewram`, `iwram`) are embedded as total functions
`ℕ → ℕ`; a byte read takes the value `% 256`, mirroring the `u8` element
type. All offsets the handler produces are masked into the region size by
the source itself, so reads and writes below are in bounds by
construction. -/

/-- Little-endian byte read modelling `u8` indexing. -/
def readU8fn (mem : ℕ → ℕ) (i : ℕ) : ℕ := mem i % 256

/-- byteorder LE::read_u16. -/
def readU16fn (mem : ℕ → ℕ) (i : ℕ) : ℕ :=
  readU8fn mem i ||| (readU8fn mem (i + 1) <<< 8)

/-- byteorder LE::read_u32. -/
def readU32fn (mem : ℕ → ℕ) (i : ℕ) : ℕ :=
  readU8fn mem i ||| (readU8fn mem (i + 1) <<< 8) ||| (readU8fn mem (i + 2) <<< 16) |||
    (readU8fn mem (i + 3) <<< 24)

/-- byteorder LE::write_u16. -/
def writeU16fn (mem : ℕ → ℕ) (i v : ℕ) : ℕ → ℕ :=
  updFn (updFn mem i (v % 256)) (i + 1) (v / 256 % 256)

/-- byteorder LE::write_u32. -/
def writeU32fn (mem : ℕ → ℕ) (i v : ℕ) : ℕ → ℕ :=
  updFn (updFn (updFn (updFn mem i (v % 256)) (i + 1) (v / 2 ^ 8 % 256))
    (i + 2) (v / 2 ^ 16 % 256)) (i + 3) (v / 2 ^ 24 % 256)

/-- concat16 (src/memory.rs:28-31). -/
def concat16 (msb lsb : ℕ) : ℕ := (msb <<< 16) ||| lsb

/-- mirror_16to32 (src/memory.rs:33-36). -/
def mirror_16to32 (x : ℕ) : ℕ := concat16 x x

/-- do_iwram_rw32 (src/memory.rs:44-74). On a read the freshly read word is
merged into the previous bus data through a width- and lane-dependent mask
("to simulate bus capacitance"); on a write the addressed lanes are
stored. Returns the new bus data and the new memory. -/
def do_iwram_rw32 (data : ℕ) (memory : ℕ → ℕ) (offset : ℕ) (op : OperationType)
    (width : AccessWidth) : ℕ × (ℕ → ℕ) :=
  match op with
  | .read _ =>
    let read := readU32fn memory (offset &&& 0xFFFFFFFC)
    let mask :=
      match width with
      | .bit8 => 0xFF <<< ((offset &&& 0b11) * 8)
      | .bit16 => 0xFFFF <<< ((offset &&& 0b10) * 8)
      | .bit32 => 0xFFFFFFFF
    ((data &&& (0xFFFFFFFF ^^^ mask)) ||| (read &&& mask), memory)
  | .write =>
    match width with
    | .bit8 => (data, updFn memory offset (data % 256))
    | .bit16 => (data, writeU16fn memory offset (data % 65536))
    | .bit32 => (data, writeU32fn memory offset (data % 2 ^ 32))

/-- do_write16 (src/memory.rs:104-111). -/
def do_write16 (memory : ℕ → ℕ) (offset : ℕ) (data : ℕ) (width : AccessWidth) : ℕ → ℕ :=
  match width with
  | .bit8 => updFn memory offset (data % 256)
  | .bit16 | .bit32 => writeU16fn memory (offset &&& 0xFFFFFFFE) data

/-- do_ewram_rw16 (src/memory.rs:76-91): a read loads the half-word at the
aligned offset into the latch; a write stores the latch via `do_write16`.
Returns the new latch value and the new memory. -/
def do_ewram_rw16 (data : ℕ) (memory : ℕ → ℕ) (offset : ℕ) (op : OperationType)
    (width : AccessWidth) : ℕ × (ℕ → ℕ) :=
  match op with
  | .read _ => (readU16fn memory (offset &&& 0xFFFFFFFE), memory)
  | .write => (data, do_write16 memory offset data width)

/-- The state owned by the memory task (src/memory.rs:12-26). Regions the
handler leaves untouched (MMIO, palette, VRAM, OAM, cart) carry no state
here because the source's arms for them are empty. -/
structure MemoryUnit where
  bios : ℕ → ℕ
  biosUnlocked : Bool
  lastBiosRead : ℕ
  ewram : ℕ → ℕ
  iwram : ℕ → ℕ

/-- One iteration of Memory::run_task's loop when `bus.request` is present
(src/memory.rs:114-205), with the intra-access `wait_cycles!` suspensions
collapsed: the data-latch and memory effects happen in source order, and
`busy` ends `false` exactly as the source leaves it. On any
instruction-fetch request the BIOS lock is refreshed first; the BIOS arm
serves the cached `last_bios_read` when locked; the EWRAM arm performs one
or two 16-bit accesses; the IWRAM arm is a single 32-bit-wide access; all
other regions are no-ops in the source. -/
def memHandleRequest (mem : MemoryUnit) (bus : Bus) : MemoryUnit × Bus :=
  match bus.request with
  | none => (mem, bus)
  | some request =>
    let mem :=
      match request.op with
      | .read true => { mem with biosUnlocked := decide (request.address < 0x4000) }
      | _ => mem
    match bits request.address 24 31 with
    | 0x0 =>
      let mem :=
        if mem.biosUnlocked then
          { mem with lastBiosRead := readU32fn mem.bios (request.address &&& 0x3FFC) }
        else mem
      (mem, { bus with data := mem.lastBiosRead })
    | 0x2 =>
      let offset := request.address &&& 0x3FFFF
      let lowLatch := bus.data % 65536
      let highLatch := (bus.data >>> 16) % 65536
      let (lowLatch, m1) := do_ewram_rw16 lowLatch mem.ewram offset request.op request.width
      let bus := { bus with data := mirror_16to32 lowLatch }
      if request.width = .bit32 then
        let (highLatch, m2) :=
          do_ewram_rw16 highLatch m1 (offset ^^^ 0b10) request.op request.width
        ({ mem with ewram := m2 }, { bus with data := concat16 highLatch lowLatch, busy := false })
      else
        ({ mem with ewram := m1 }, { bus with busy := false })
    | 0x3 =>
      let offset := request.address &&& 0x7FFF
      let (data, m1) := do_iwram_rw32 bus.data mem.iwram offset request.op request.width
      ({ mem with iwram := m1 }, { bus with data := data })
    | _ => (mem, bus)

/-! ## Cycle scheduler (src/scheduler.rs)

A task is embedded as the list of cycle counts it will yield on its
successive resumptions; a resumption with an empty list is
`GeneratorState::Complete`, mirroring a generator that has run through.
The `BinaryHeap<ScheduledTask>` is embedded as a plain list together with
`popMin`, which removes an entry that is minimal for the ordering of
`ScheduledTask::cmp` (src/scheduler.rs:107-116): the source reverses the
`(scheduled_at, task_id)` lexicographic order so that the max-heap pops
the smallest `(scheduled_at, task_id)` pair first. `PeekMut` mutation of
the popped entry followed by sift-down is pop-then-push on the
multiset. -/

structure ScheduledTask where
  scheduledAt : ℕ
  taskId : ℕ
deriving DecidableEq, Repr

/-- Minimal-first comparison induced by ScheduledTask::cmp
(src/scheduler.rs:107-116): earlier due time first, ties broken by smaller
`task_id`. -/
def ScheduledTask.lexLe (a b : ScheduledTask) : Bool :=
  a.scheduledAt < b.scheduledAt || (a.scheduledAt == b.scheduledAt && a.taskId ≤ b.taskId)

/-- Worker for `popMin`: scan the remaining entries, keeping the best
(first-encountered minimal) entry and accumulating the rest. -/
def popMinGo (best : ScheduledTask) (acc : List ScheduledTask) :
    List ScheduledTask → ScheduledTask × List ScheduledTask
  | [] => (best, acc.reverse)
  | e :: rest =>
    if best.lexLe e then popMinGo best (e :: acc) rest
    else popMinGo e (best :: acc) rest

/-- Heap pop: remove a `(scheduled_at, task_id)`-minimal entry. -/
def popMin : List ScheduledTask → Option (ScheduledTask × List ScheduledTask)
  | [] => none
  | e :: rest => some (popMinGo e [] rest)

structure TaskScheduler where
  currentTime : ℕ
  scheduledTasks : List ScheduledTask
  activeTasks : List (Option (List ℕ))
deriving DecidableEq, Repr

/-- TaskScheduler::new (src/scheduler.rs:135-141). -/
def TaskScheduler.new : TaskScheduler :=
  { currentTime := 0, scheduledTasks := [], activeTasks := [] }

/-- TaskScheduler::add_new_task (src/scheduler.rs:147-154): the fresh task
id is the current length of `active_tasks`, and the task is enqueued at
the current time. -/
def add_new_task (s : TaskScheduler) (task : List ℕ) : TaskScheduler :=
  { s with
    activeTasks := s.activeTasks ++ [some task]
    scheduledTasks := s.scheduledTasks ++ [⟨s.currentTime, s.activeTasks.length⟩] }

/-- Observable events of a `run_for` call: task resumptions and (re-)
enqueues of heap entries, in program order. -/
inductive TraceEvent where
  | resume (time id : ℕ)
  | enqueue (time id : ℕ)
deriving DecidableEq, Repr

/-- Outcome of the embedded `run_for` loop: normal return, a panic (the
source's `.unwrap()` on a missing `active_tasks` entry), or exhaustion of
the step fuel that makes the embedding total. -/
inductive RunResult where
  | ok (s : TaskScheduler) (trace : List TraceEvent)
  | panicked (trace : List TraceEvent)
  | outOfFuel
deriving DecidableEq, Repr

/-- Trace observed so far, for all three outcomes that carry one. -/
def RunResult.getTrace : RunResult → List TraceEvent
  | .ok _ trace => trace
  | .panicked trace => trace
  | .outOfFuel => []

/-- The `'l: loop` of TaskScheduler::run_for (src/scheduler.rs:162-190).
Each iteration pops the minimal heap entry; if it is due before
`stop`, the corresponding task is looked up
(`active_tasks.get_mut(task_id).and_then(|x| x.as_mut()).unwrap()` — the
`unwrap` panics when the slot is missing or `None`) and resumed. A yield
re-enqueues the entry at `scheduled_at + cycles` (PeekMut in-place
update); a completion pops the entry and calls
`active_tasks.remove(task_id)`, which is `Vec::remove`: it deletes the
slot and shifts every later slot down by one (embedded as
`List.eraseIdx`). -/
def runLoop (stop : ℕ) : ℕ → TaskScheduler → List TraceEvent → RunResult
  | 0, _, _ => .outOfFuel
  | fuel + 1, s, trace =>
    match popMin s.scheduledTasks with
    | none => .ok s trace
    | some (entry, rest) =>
      if stop ≤ entry.scheduledAt then .ok s trace
      else
        match s.activeTasks.get? entry.taskId with
        | none => .panicked trace
        | some none => .panicked trace
        | some (some task) =>
          let trace := trace ++ [.resume entry.scheduledAt entry.taskId]
          match task with
          | [] =>
            runLoop stop fuel
              { s with
                scheduledTasks := rest
                activeTasks := s.activeTasks.eraseIdx entry.taskId } trace
          | cycles :: taskRest =>
            let entry' : ScheduledTask := ⟨entry.scheduledAt + cycles, entry.taskId⟩
            runLoop stop fuel
              { s with
                scheduledTasks := rest ++ [entry']
                activeTasks := s.activeTasks.set entry.taskId (some taskRest) }
              (trace ++ [.enqueue entry'.scheduledAt entry'.taskId])

/-- TaskScheduler::run_for (src/scheduler.rs:156-193), with a fuel bound
making the potentially non-terminating source loop total. A zero-cycle
call returns immediately; otherwise the loop runs with
`stop_time = current_time + cycles` and finally `current_time` is set to
`stop_time`. -/
def run_for (s : TaskScheduler) (cycles fuel : ℕ) : RunResult :=
  if cycles = 0 then .ok s []
  else
    match runLoop (s.currentTime + cycles) fuel s [] with
    | .ok s' trace => .ok { s' with currentTime := s.currentTime + cycles } trace
    | r => r

/-! ## PPU scanline renderer (src/ppu.rs)

Rust slices `&[u8]` / `&[u16]` are embedded as a `Buf`: an element count
plus a content function (element values are taken `% 256` or `% 65536`,
mirroring the element type). Indexing out of bounds is the slice panic,
i.e. `none`; re-slicing checks the length like Rust range slicing does. -/

structure Buf where
  size : ℕ
  data : ℕ → ℕ

/-- Rust `&buf[..n]` (panics when `n` exceeds the length). -/
def bufTake (b : Buf) (n : ℕ) : Option Buf :=
  if n ≤ b.size then some ⟨n, b.data⟩ else none

/-- Rust `&buf[n..]` (panics when `n` exceeds the length). -/
def bufDrop (b : Buf) (n : ℕ) : Option Buf :=
  if n ≤ b.size then some ⟨b.size - n, fun i => b.data (n + i)⟩ else none

/-- Bounds-checked `u8` element read, `buf[i]`. -/
def bufGet8 (b : Buf) (i : ℕ) : Option ℕ :=
  if i < b.size then some (b.data i % 256) else none

/-- Bounds-checked `u16` element read, `buf[i]` on a `&[u16]`. -/
def bufGet16elem (b : Buf) (i : ℕ) : Option ℕ :=
  if i < b.size then some (b.data i % 65536) else none

/-- byteorder LE::read_u16 on a byte slice (bounds-checked). -/
def bufReadU16LE (b : Buf) (i : ℕ) : Option ℕ := do
  let lo ← bufGet8 b i
  let hi ← bufGet8 b (i + 1)
  pure (lo ||| (hi <<< 8))

inductive BgPaletteMode where
  | pal16
  | pal256
deriving DecidableEq, Repr

structure BgAttributes where
  priority : ℕ
  charBase : ℕ
  paletteMode : BgPaletteMode
  mapBase : ℕ
  sizeMode : ℕ
  xScroll : ℕ
  yScroll : ℕ
deriving DecidableEq, Repr

/-- BgAttributes::new (src/ppu.rs:24-36). -/
def BgAttributes.new : BgAttributes :=
  { priority := 0, charBase := 0, paletteMode := .pal16, mapBase := 0, sizeMode := 0,
    xScroll := 0, yScroll := 0 }

structure LcdControllerRegs where
  videoMode : ℕ
  activeDisplayPage : ℕ
  forcedBlankEnabled : Bool
  bgLayerEnabled : ℕ → Bool
  bgAttributes : ℕ → BgAttributes

/-- LcdControllerRegs::new (src/ppu.rs:50-57). -/
def LcdControllerRegs.new : LcdControllerRegs :=
  { videoMode := 0, activeDisplayPage := 0, forcedBlankEnabled := false,
    bgLayerEnabled := fun _ => false, bgAttributes := fun _ => BgAttributes.new }

inductive LayerId where
  | obj
  | bg (n : ℕ)
  | backdrop
deriving DecidableEq, Repr

structure Layer where
  id : LayerId
  color : ℕ
  priority : ℕ
  forceAlphaBlend : Bool
deriving DecidableEq, Repr

/-- The nested `calc_bg_coords` of render_text_bg_pixel (src/ppu.rs:123-129):
`(tile, map, submap)` coordinates from a screen coordinate and a scroll
(u16 wrapping add, then mod 512). -/
def calc_bg_coords (screen scroll : ℕ) : ℕ × ℕ × ℕ :=
  let bg := (screen + scroll) % 65536 % 512
  (bg % 8, bg / 8 % 32, bg / 8 / 32)

/-- render_text_bg_pixel (src/ppu.rs:114-188). The outer `Option` is a
panic (out-of-bounds VRAM access, the `unreachable!` for size modes ≥ 4,
or the `assert!`); the inner `Option` is layer transparency. -/
def render_text_bg_pixel (screenY screenX bgId : ℕ) (bg : BgAttributes)
    (vram pals : Buf) : Option (Option Layer) := do
  let (tileX, mapX, submapX) := calc_bg_coords screenX bg.xScroll
  let (tileY, mapY, submapY) := calc_bg_coords screenY bg.yScroll
  let screenblockOffset ←
    match bg.sizeMode with
    | 0 => some 0
    | 1 => some submapX
    | 2 => some submapY
    | 3 => some (submapY * 2 + submapX)
    | _ => none
  if screenblockOffset < 4 then do
    let screenblockBase := (bg.mapBase + screenblockOffset) * 0x800
    let mapEntryOffset := mapY * 32 + mapX
    let entry ← bufReadU16LE vram (screenblockBase + mapEntryOffset * 2)
    let tileId := bits entry 0 9
    let hFlip := bit1 entry 10 != 0
    let vFlip := bit1 entry 11 != 0
    let palId := bits entry 12 15
    let flippedTileX := if hFlip then 7 - tileX else tileX
    let flippedTileY := if vFlip then 7 - tileY else tileY
    let charmapBase := bg.charBase * 0x4000
    let charmapOffset := tileId * (8 * 8) + flippedTileY * 8 + flippedTileX
    let (paletteIndex, isOpaque) ←
      match bg.paletteMode with
      | .pal16 => do
        let readByte ← bufGet8 vram (charmapBase + charmapOffset / 2)
        let pixel := (readByte >>> (flippedTileX % 2 * 4)) &&& 0xF
        pure (pixel + palId * 16, pixel != 0)
      | .pal256 => do
        let paletteIndex ← bufGet8 vram (charmapBase + charmapOffset)
        pure (paletteIndex, paletteIndex != 0)
    let color ← bufGet16elem pals paletteIndex
    if isOpaque then
      pure (some { id := .bg bgId, color, priority := bg.priority, forceAlphaBlend := false })
    else
      pure none
  else none

/-- Fold worker of pick_top_two (src/ppu.rs:190-205): a new strictly
smaller key replaces `first` (the old `first` becoming `second`); on ties
the earlier element is kept. -/
def pick_top_two_fold (key : Layer → ℕ) (first : Layer) (second : Option Layer) :
    List Layer → Layer × Option Layer
  | [] => (first, second)
  | e :: rest =>
    if key e < key first then pick_top_two_fold key e (some first) rest
    else pick_top_two_fold key first second rest

/-- pick_top_two (src/ppu.rs:190-205), specialised to `Layer` elements. -/
def pick_top_two (l : List Layer) (key : Layer → ℕ) : Option Layer × Option Layer :=
  match l with
  | [] => (none, none)
  | first :: rest =>
    let (f, s) := pick_top_two_fold key first none rest
    (some f, s)

/-- pick_top_two_layers (src/ppu.rs:224-227): keep the present layers (in
slot order obj, bg0, bg1, bg2, bg3, backdrop) and pick by priority; the
source's `.unwrap()` (always satisfied thanks to the backdrop) is `none`
on an empty candidate list. -/
def pick_top_two_layers (layers : List (Option Layer)) : Option (Layer × Option Layer) :=
  match pick_top_two (layers.filterMap id) (fun l => l.priority) with
  | (some f, s) => some (f, s)
  | (none, _) => none

/-- One `bg` iteration of render_mode0_backgrounds /
render_mode1_backgrounds (src/ppu.rs:283-326): render the text pixel into
slot `bg + 1` when the layer is enabled. -/
def renderTextBgStep (screenY screenX : ℕ) (regs : LcdControllerRegs)
    (bgVram bgPals : Buf) (layers : List (Option Layer)) (bg : ℕ) :
    Option (List (Option Layer)) :=
  if regs.bgLayerEnabled bg then do
    let l ← render_text_bg_pixel screenY screenX bg (regs.bgAttributes bg) bgVram bgPals
    pure (layers.set (bg + 1) l)
  else pure layers

/-- render_mode0_backgrounds (src/ppu.rs:283-303): text pixels for bg0-bg3. -/
def render_mode0_backgrounds (layers : List (Option Layer)) (screenY screenX : ℕ)
    (regs : LcdControllerRegs) (bgVram bgPals : Buf) : Option (List (Option Layer)) := do
  let layers ← renderTextBgStep screenY screenX regs bgVram bgPals layers 0
  let layers ← renderTextBgStep screenY screenX regs bgVram bgPals layers 1
  let layers ← renderTextBgStep screenY screenX regs bgVram bgPals layers 2
  renderTextBgStep screenY screenX regs bgVram bgPals layers 3

/-- render_mode1_backgrounds (src/ppu.rs:305-326): text pixels for bg0-bg1
only (affine bg2 is a TODO in the source). -/
def render_mode1_backgrounds (layers : List (Option Layer)) (screenY screenX : ℕ)
    (regs : LcdControllerRegs) (bgVram bgPals : Buf) : Option (List (Option Layer)) := do
  let layers ← renderTextBgStep screenY screenX regs bgVram bgPals layers 0
  renderTextBgStep screenY screenX regs bgVram bgPals layers 1

/-- render_mode3_bg_pixel (src/ppu.rs:330-349): out-of-range coordinates
are transparent; otherwise the BGR555 word read straight from VRAM,
always opaque. -/
def render_mode3_bg_pixel (screenY screenX : ℕ) (bg : BgAttributes) (vram : Buf) :
    Option (Option Layer) :=
  if 160 ≤ screenY ∨ 240 ≤ screenX then some none
  else do
    let pixelOffset := (screenY * 240 + screenX) * 2
    let color ← bufReadU16LE vram pixelOffset
    pure (some { id := .bg 2, color, priority := bg.priority, forceAlphaBlend := false })

/-- render_mode4_bg_pixel (src/ppu.rs:369-397): paletted bitmap with page
select; palette index 0 is transparent. -/
def render_mode4_bg_pixel (screenY screenX : ℕ) (bg : BgAttributes) (displayPage : ℕ)
    (vram bgPals : Buf) : Option (Option Layer) :=
  if 160 ≤ screenY ∨ 240 ≤ screenX then some none
  else do
    let pageOffset := screenY * 240 + screenX
    let pageBase := displayPage * 0xA000
    let paletteIndex ← bufGet8 vram (pageBase + pageOffset)
    let color ← bufGet16elem bgPals paletteIndex
    if paletteIndex ≠ 0 then
      pure (some { id := .bg 2, color, priority := bg.priority, forceAlphaBlend := false })
    else
      pure none

/-- render_mode5_bg_pixel (src/ppu.rs:420-442): 160x128 BGR555 bitmap with
page select; out-of-range coordinates are transparent. -/
def render_mode5_bg_pixel (screenY screenX : ℕ) (bg : BgAttributes) (displayPage : ℕ)
    (vram : Buf) : Option (Option Layer) :=
  if 128 ≤ screenY ∨ 160 ≤ screenX then some none
  else do
    let pageOffset := (screenY * 160 + screenX) * 2
    let pageBase := displayPage * 0xA000
    let color ← bufReadU16LE vram (pageBase + pageOffset)
    pure (some { id := .bg 2, color, priority := bg.priority, forceAlphaBlend := false })

/-- render_mode3_backgrounds (src/ppu.rs:351-367): layer slot 2 when bg2 is
enabled. -/
def render_mode3_backgrounds (layers : List (Option Layer)) (screenY screenX : ℕ)
    (regs : LcdControllerRegs) (vram : Buf) : Option (List (Option Layer)) :=
  if regs.bgLayerEnabled 2 then do
    let l ← render_mode3_bg_pixel screenY screenX (regs.bgAttributes 2) vram
    pure (layers.set 2 l)
  else pure layers

/-- render_mode4_backgrounds (src/ppu.rs:399-418). -/
def render_mode4_backgrounds (layers : List (Option Layer)) (screenY screenX : ℕ)
    (regs : LcdControllerRegs) (vram bgPals : Buf) : Option (List (Option Layer)) :=
  if regs.bgLayerEnabled 2 then do
    let l ← render_mode4_bg_pixel screenY screenX (regs.bgAttributes 2)
      regs.activeDisplayPage vram bgPals
    pure (layers.set 2 l)
  else pure layers

/-- render_mode5_backgrounds (src/ppu.rs:444-461). -/
def render_mode5_backgrounds (layers : List (Option Layer)) (screenY screenX : ℕ)
    (regs : LcdControllerRegs) (vram : Buf) : Option (List (Option Layer)) :=
  if regs.bgLayerEnabled 2 then do
    let l ← render_mode5_bg_pixel screenY screenX (regs.bgAttributes 2)
      regs.activeDisplayPage vram
    pure (layers.set 2 l)
  else pure layers

/-- The per-pixel candidate construction of render_lcd_line's loop body
(src/ppu.rs:242-272): six empty slots, mode-dispatched background layers
(mode 2 is `unimplemented!()`, i.e. `none`; invalid modes only log), then
the backdrop layer `palette[0]` at priority 4 in slot 5. -/
def candidate_layers (screenY screenX : ℕ) (regs : LcdControllerRegs)
    (bgVram bgPals bitmapVram : Buf) : Option (List (Option Layer)) := do
  let layers : List (Option Layer) := [none, none, none, none, none, none]
  let layers ←
    match regs.videoMode with
    | 0 => render_mode0_backgrounds layers screenY screenX regs bgVram bgPals
    | 1 => render_mode1_backgrounds layers screenY screenX regs bgVram bgPals
    | 2 => none
    | 3 => render_mode3_backgrounds layers screenY screenX regs bitmapVram
    | 4 => render_mode4_backgrounds layers screenY screenX regs bitmapVram bgPals
    | 5 => render_mode5_backgrounds layers screenY screenX regs bitmapVram
    | _ => some layers
  let backdropColor ← bufGet16elem bgPals 0
  pure (layers.set 5 (some
    { id := .backdrop, color := backdropColor, priority := 4, forceAlphaBlend := false }))

/-- One pixel of render_lcd_line (src/ppu.rs:242-279): build the candidate
layers, pick the top one, output its color verbatim (blending is a TODO). -/
def renderLcdPixel (screenY screenX : ℕ) (regs : LcdControllerRegs)
    (bgVram bgPals bitmapVram : Buf) : Option ℕ := do
  let layers ← candidate_layers screenY screenX regs bgVram bgPals bitmapVram
  let (topLayer, _bottomLayer) ← pick_top_two_layers layers
  pure topLayer.color

/-- Collect `[f 0, …, f (n-1)]`, failing when any element fails (the
embedding of the `for screen_x in 0..240` output loop). -/
def optionMapRange (f : ℕ → Option ℕ) : ℕ → Option (List ℕ)
  | 0 => some []
  | n + 1 => do
    let xs ← optionMapRange f n
    let a ← f n
    pure (xs ++ [a])

/-- render_lcd_line (src/ppu.rs:229-281): slice VRAM and palette views in
source order (each slicing panics when the input is too short), then
produce the 240 pixels. -/
def render_lcd_line (screenY : ℕ) (regs : LcdControllerRegs) (vram pals : Buf) :
    Option (List ℕ) := do
  let bgVram ← bufTake vram (64 * 1024)
  let bgPals ← bufTake pals (16 * 16)
  let _objVram ← bufDrop vram (64 * 1024)
  let bitmapVram ← bufTake vram (80 * 1024)
  optionMapRange (fun screenX => renderLcdPixel screenY screenX regs bgVram bgPals bitmapVram) 240

/-! ## Spec-side models and concrete inputs used by the theorems -/

/-- Modelled from the spec: `sign_extend_24` as §4.5 "Branch" uses it.
The source never sign-extends the 24-bit branch offset; this definition
follows the spec's words for comparison with `step_execute_fsm`. -/
def spec_sign_extend_24 (x : ℕ) : ℤ :=
  if x < 2 ^ 23 then (x : ℤ) else (x : ℤ) - 2 ^ 24

/-- Modelled from the spec: `new_pc := pc + (sign_extend_24(offset) << 2)`
reduced modulo 2^32, following §4.5 "Branch". -/
def spec_branch_new_pc (pc offset : ℕ) : ℤ :=
  ((pc : ℤ) + spec_sign_extend_24 offset * 4) % 2 ^ 32

/-- Low 16-bit half of a 32-bit bus word. -/
def loHalf (x : ℕ) : ℕ := x % 2 ^ 16

/-- High 16-bit half of a 32-bit bus word. -/
def hiHalf (x : ℕ) : ℕ := x / 2 ^ 16 % 2 ^ 16

/-- Byte lane `j` (0-3) of a 32-bit bus word. -/
def byteLane (x j : ℕ) : ℕ := x / 2 ^ (8 * j) % 256

/-- All-zero byte memory. -/
def zeroBytes : ℕ → ℕ := fun _ => 0

/-- A first request, pending on the bus (C4 scenario). -/
def req1 : MemoryRequest :=
  { address := 0, width := .bit32, op := .read true, seq := false }

/-- A second request issued in the same cycle (C4 scenario). -/
def req2 : MemoryRequest :=
  { address := 4, width := .bit16, op := .write, seq := true }

/-- A bus with `req1` still outstanding. -/
def busPending : Bus :=
  { request := some req1, busy := false, dmaActive := false, data := 7 }

/-- A bus whose slave is busy. -/
def busBusy : Bus := { request := none, busy := true, dmaActive := false, data := 0 }

/-- A CPU about to execute from the pipeline with `regs[PC] = 8` (the PC
value after fetching the instruction at address 0 plus two refills). -/
def cpuAtPc8 : ArmCpu := { ArmCpu.new with regs := updFn (fun _ => 0) 15 8 }

/-- Two tasks for the C5 scenario: task 0 yields 2 then 3 then 9 cycles,
task 1 yields 5 then 9 cycles, both enqueued at time 0. -/
def schedulerC5 : TaskScheduler :=
  add_new_task (add_new_task TaskScheduler.new [2, 3, 9]) [5, 9]

/-- Two tasks for the C6 scenario: task 0 completes on its first
resumption, task 1 yields 5 cycles. -/
def schedulerTwoTasks : TaskScheduler :=
  add_new_task (add_new_task TaskScheduler.new []) [5]

/-- The C6 claim's invariant: every task id in the priority queue resolves
to a live (`Some`) entry of the task map. -/
def queueMapInvariant (s : TaskScheduler) : Prop :=
  ∀ e ∈ s.scheduledTasks, ((s.activeTasks.get? e.taskId).join).isSome = true

/-- IWRAM holding the little-endian word `0x11223344` at offset 0. -/
def iwramSampleBytes : ℕ → ℕ := fun i =>
  if i = 0 then 0x44 else if i = 1 then 0x33 else if i = 2 then 0x22
  else if i = 3 then 0x11 else 0

/-- Memory unit for the C3 counterexample. -/
def memIwramSample : MemoryUnit :=
  { bios := zeroBytes, biosUnlocked := false, lastBiosRead := 0,
    ewram := zeroBytes, iwram := iwramSampleBytes }

/-- A 16-bit data read of IWRAM address `0x03000000` with bus data latched
at 0 from the previous cycle. -/
def busRead16 : Bus :=
  { request := some { address := 0x3000000, width := .bit16, op := .read false, seq := false },
    busy := false, dmaActive := false, data := 0 }

/-- A locked memory unit whose BIOS bytes are all `0xAA`. -/
def memBiosA : MemoryUnit :=
  { bios := fun _ => 0xAA, biosUnlocked := false, lastBiosRead := 0x12345678,
    ewram := zeroBytes, iwram := zeroBytes }

/-- The same unit but with BIOS bytes all `0x55`. -/
def memBiosB : MemoryUnit :=
  { bios := fun _ => 0x55, biosUnlocked := false, lastBiosRead := 0x12345678,
    ewram := zeroBytes, iwram := zeroBytes }

/-- A data (non-instruction) read of BIOS address `0x100`. -/
def busBiosRead : Bus :=
  { request := some { address := 0x100, width := .bit32, op := .read false, seq := false },
    busy := false, dmaActive := false, data := 0 }

/-- LCD registers selecting video mode 2 (everything else default). -/
def regsMode2 : LcdControllerRegs := { LcdControllerRegs.new with videoMode := 2 }

/-- LCD registers selecting video mode 5 with bg2 enabled. -/
def regsMode5 : LcdControllerRegs :=
  { LcdControllerRegs.new with videoMode := 5, bgLayerEnabled := fun i => i == 2 }

/-- A 96 KiB all-zero VRAM. -/
def vram0 : Buf := ⟨98304, zeroBytes⟩

/-- A 512-entry all-zero palette. -/
def pals0 : Buf := ⟨512, zeroBytes⟩

/-- The backdrop layer the renderer appends in slot 5 (color is
`palette[0]`, priority 4). -/
def backdropLayer (c : ℕ) : Layer :=
  { id := .backdrop, color := c, priority := 4, forceAlphaBlend := false }

/-! ## Helper lemmas -/

theorem lor_mod_two_pow (a b n : ℕ) : (a ||| b) % 2 ^ n = a % 2 ^ n ||| b % 2 ^ n := by
  apply Nat.eq_of_testBit_eq
  intro i
  simp only [Nat.testBit_mod_two_pow, Nat.testBit_or]
  cases Nat.decLt i n with
  | isTrue h => simp [h]
  | isFalse h => simp [h]

theorem land_mod_two_pow (a b n : ℕ) : (a &&& b) % 2 ^ n = a % 2 ^ n &&& b % 2 ^ n := by
  apply Nat.eq_of_testBit_eq
  intro i
  simp only [Nat.testBit_mod_two_pow, Nat.testBit_and]
  cases Nat.decLt i n with
  | isTrue h => simp [h]
  | isFalse h => simp [h]

theorem lor_shiftRight (a b k : ℕ) : (a ||| b) >>> k = (a >>> k) ||| (b >>> k) := by
  apply Nat.eq_of_testBit_eq
  intro i
  simp [Nat.testBit_shiftRight, Nat.testBit_or]

theorem land_shiftRight (a b k : ℕ) : (a &&& b) >>> k = (a >>> k) &&& (b >>> k) := by
  apply Nat.eq_of_testBit_eq
  intro i
  simp [Nat.testBit_shiftRight, Nat.testBit_and]

theorem lor_shiftLeft (a b k : ℕ) : (a ||| b) <<< k = (a <<< k) ||| (b <<< k) := by
  apply Nat.eq_of_testBit_eq
  intro i
  simp only [Nat.testBit_shiftLeft, Nat.testBit_or]
  cases Nat.decLe k i with
  | isTrue h => simp [h]
  | isFalse h => simp [h]

theorem shiftLeft_mod_self (a k : ℕ) : (a <<< k) % 2 ^ k = 0 := by
  simp [Nat.shiftLeft_eq, Nat.mul_mod_left]

theorem shiftLeft_shiftRight_self (a k : ℕ) : (a <<< k) >>> k = a := by
  rw [Nat.shiftLeft_eq, Nat.shiftRight_eq_div_pow]
  exact Nat.mul_div_cancel a (Nat.pos_pow_of_pos k (by norm_num))

theorem readU8fn_lt (mem : ℕ → ℕ) (i : ℕ) : readU8fn mem i < 2 ^ 8 :=
  Nat.mod_lt _ (by norm_num)

theorem readU16fn_lt (mem : ℕ → ℕ) (i : ℕ) : readU16fn mem i < 2 ^ 16 := by
  have h1 : readU8fn mem i < 2 ^ 16 := lt_of_lt_of_le (readU8fn_lt mem i) (by norm_num)
  have h2 : readU8fn mem (i + 1) <<< 8 < 2 ^ 16 := by
    rw [Nat.shiftLeft_eq]
    calc readU8fn mem (i + 1) * 2 ^ 8 < 2 ^ 8 * 2 ^ 8 :=
      (Nat.mul_lt_mul_right (by norm_num)).mpr (readU8fn_lt mem (i + 1))
    _ = 2 ^ 16 := by norm_num
  exact Nat.or_lt_two_pow h1 h2

theorem readU32fn_lt (mem : ℕ → ℕ) (i : ℕ) : readU32fn mem i < 2 ^ 32 := by
  have hb : ∀ j k, k ≤ 24 → readU8fn mem j <<< k < 2 ^ 32 := by
    intro j k hk
    rw [Nat.shiftLeft_eq]
    calc readU8fn mem j * 2 ^ k < 2 ^ 8 * 2 ^ k :=
      (Nat.mul_lt_mul_right (Nat.pos_pow_of_pos k (by norm_num))).mpr (readU8fn_lt mem j)
    _ = 2 ^ (8 + k) := by rw [pow_add]
    _ ≤ 2 ^ 32 := Nat.pow_le_pow_right (by norm_num) (by omega)
  have h0 : readU8fn mem i < 2 ^ 32 := lt_of_lt_of_le (readU8fn_lt mem i) (by norm_num)
  exact Nat.or_lt_two_pow
    (Nat.or_lt_two_pow (Nat.or_lt_two_pow h0 (hb (i + 1) 8 (by norm_num)))
      (hb (i + 2) 16 (by norm_num))) (hb (i + 3) 24 (by norm_num))

theorem loHalf_readU32fn (mem : ℕ → ℕ) (i : ℕ) : loHalf (readU32fn mem i) = readU16fn mem i := by
  unfold loHalf readU32fn readU16fn
  rw [lor_mod_two_pow, lor_mod_two_pow, lor_mod_two_pow]
  have h8 : readU8fn mem (i + 1) <<< 8 % 2 ^ 16 = readU8fn mem (i + 1) <<< 8 :=
    Nat.mod_eq_of_lt (by
      rw [Nat.shiftLeft_eq]
      calc readU8fn mem (i + 1) * 2 ^ 8 < 2 ^ 8 * 2 ^ 8 :=
        (Nat.mul_lt_mul_right (by norm_num)).mpr (readU8fn_lt mem (i + 1))
      _ = 2 ^ 16 := by norm_num)
  have h16 : readU8fn mem (i + 2) <<< 16 % 2 ^ 16 = 0 := shiftLeft_mod_self _ 16
  have h24 : readU8fn mem (i + 3) <<< 24 % 2 ^ 16 = 0 := by
    have : readU8fn mem (i + 3) <<< 24 = (readU8fn mem (i + 3) <<< 8) <<< 16 := by
      simp [Nat.shiftLeft_eq, Nat.mul_assoc, ← pow_add]
    rw [this]
    exact shiftLeft_mod_self _ 16
  rw [h8, h16, h24, Nat.mod_eq_of_lt (lt_of_lt_of_le (readU8fn_lt mem i) (by norm_num))]
  simp

theorem shiftLeft_lt_of_lt (a k n : ℕ) (h : a < 2 ^ n) : a <<< k < 2 ^ (n + k) := by
  rw [Nat.shiftLeft_eq, pow_add]
  exact (Nat.mul_lt_mul_right (Nat.pos_pow_of_pos k (by norm_num))).mpr h

theorem hiHalf_readU32fn (mem : ℕ → ℕ) (i : ℕ) :
    hiHalf (readU32fn mem i) = readU16fn mem (i + 2) := by
  unfold hiHalf readU32fn readU16fn
  rw [← Nat.shiftRight_eq_div_pow, lor_shiftRight, lor_shiftRight, lor_shiftRight]
  have h0 : readU8fn mem i >>> 16 = 0 := by
    rw [Nat.shiftRight_eq_div_pow]
    exact Nat.div_eq_of_lt (lt_of_lt_of_le (readU8fn_lt mem i) (by norm_num))
  have h1 : readU8fn mem (i + 1) <<< 8 >>> 16 = 0 := by
    rw [Nat.shiftRight_eq_div_pow]
    exact Nat.div_eq_of_lt
      (lt_of_lt_of_le (shiftLeft_lt_of_lt _ 8 8 (readU8fn_lt mem (i + 1))) (by norm_num))
  have h2 : readU8fn mem (i + 2) <<< 16 >>> 16 = readU8fn mem (i + 2) :=
    shiftLeft_shiftRight_self _ 16
  have h3 : readU8fn mem (i + 3) <<< 24 >>> 16 = readU8fn mem (i + 3) <<< 8 := by
    rw [show readU8fn mem (i + 3) <<< 24 = (readU8fn mem (i + 3) <<< 8) <<< 16 by
      simp [Nat.shiftLeft_eq, Nat.mul_assoc, ← pow_add]]
    exact shiftLeft_shiftRight_self _ 16
  rw [h0, h1, h2, h3]
  simp only [Nat.zero_or]
  have : readU8fn mem (i + 2) ||| readU8fn mem (i + 3) <<< 8 < 2 ^ 16 :=
    Nat.or_lt_two_pow (lt_of_lt_of_le (readU8fn_lt mem (i + 2)) (by norm_num))
      (lt_of_lt_of_le (shiftLeft_lt_of_lt _ 8 8 (readU8fn_lt mem (i + 3))) (by norm_num))
  rw [show i + 2 + 1 = i + 3 by omega]
  exact Nat.mod_eq_of_lt this

theorem shiftRight_eq_zero (a k m : ℕ) (h : a < 2 ^ k) (hkm : k ≤ m) : a >>> m = 0 := by
  rw [Nat.shiftRight_eq_div_pow]
  exact Nat.div_eq_of_lt (lt_of_lt_of_le h (Nat.pow_le_pow_right (by norm_num) hkm))

theorem shiftLeft_shiftRight_sub (a k m : ℕ) (h : m ≤ k) : (a <<< k) >>> m = a <<< (k - m) := by
  rw [show a <<< k = (a <<< (k - m)) <<< m by
    rw [Nat.shiftLeft_eq, Nat.shiftLeft_eq, Nat.shiftLeft_eq, Nat.mul_assoc, ← pow_add,
      show k - m + m = k from by omega]]
  exact shiftLeft_shiftRight_self _ m

theorem shiftLeft_mod_le (a k m : ℕ) (h : m ≤ k) : (a <<< k) % 2 ^ m = 0 := by
  rw [show a <<< k = (a <<< (k - m)) <<< m by
    rw [Nat.shiftLeft_eq, Nat.shiftLeft_eq, Nat.shiftLeft_eq, Nat.mul_assoc, ← pow_add,
      show k - m + m = k from by omega]]
  exact shiftLeft_mod_self _ m

theorem byteLane_readU32fn (mem : ℕ → ℕ) (i j : ℕ) (hj : j < 4) :
    byteLane (readU32fn mem i) j = readU8fn mem (i + j) := by
  have e256 : (256 : ℕ) = 2 ^ 8 := by norm_num
  interval_cases j
  · unfold byteLane readU32fn
    simp only [Nat.mul_zero, pow_zero, Nat.div_one, e256, Nat.add_zero]
    rw [lor_mod_two_pow, lor_mod_two_pow, lor_mod_two_pow,
      shiftLeft_mod_le _ 8 8 le_rfl, shiftLeft_mod_le _ 16 8 (by norm_num),
      shiftLeft_mod_le _ 24 8 (by norm_num),
      Nat.mod_eq_of_lt (readU8fn_lt mem i)]
    simp
  · unfold byteLane readU32fn
    rw [show (2 : ℕ) ^ (8 * 1) = 2 ^ 8 by norm_num, ← Nat.shiftRight_eq_div_pow,
      lor_shiftRight, lor_shiftRight, lor_shiftRight,
      shiftRight_eq_zero _ 8 8 (readU8fn_lt mem i) le_rfl,
      shiftLeft_shiftRight_self _ 8,
      shiftLeft_shiftRight_sub _ 16 8 (by norm_num),
      shiftLeft_shiftRight_sub _ 24 8 (by norm_num)]
    simp only [Nat.zero_or, Nat.shiftLeft_zero, e256]
    rw [lor_mod_two_pow, lor_mod_two_pow,
      shiftLeft_mod_le _ 8 8 le_rfl, shiftLeft_mod_le _ 16 8 (by norm_num),
      Nat.mod_eq_of_lt (readU8fn_lt mem (i + 1))]
    simp
  · unfold byteLane readU32fn
    rw [show (2 : ℕ) ^ (8 * 2) = 2 ^ 16 by norm_num, ← Nat.shiftRight_eq_div_pow,
      lor_shiftRight, lor_shiftRight, lor_shiftRight,
      shiftRight_eq_zero _ 8 16 (readU8fn_lt mem i) (by norm_num),
      shiftRight_eq_zero (readU8fn mem (i + 1) <<< 8) 16 16
        (shiftLeft_lt_of_lt _ 8 8 (readU8fn_lt mem (i + 1))) le_rfl,
      shiftLeft_shiftRight_self _ 16,
      shiftLeft_shiftRight_sub _ 24 16 (by norm_num)]
    simp only [Nat.zero_or, Nat.shiftLeft_zero, e256]
    rw [lor_mod_two_pow, shiftLeft_mod_le _ 8 8 le_rfl,
      Nat.mod_eq_of_lt (readU8fn_lt mem (i + 2))]
    simp
  · unfold byteLane readU32fn
    rw [show (2 : ℕ) ^ (8 * 3) = 2 ^ 24 by norm_num, ← Nat.shiftRight_eq_div_pow,
      lor_shiftRight, lor_shiftRight, lor_shiftRight,
      shiftRight_eq_zero _ 8 24 (readU8fn_lt mem i) (by norm_num),
      shiftRight_eq_zero (readU8fn mem (i + 1) <<< 8) 16 24
        (shiftLeft_lt_of_lt _ 8 8 (readU8fn_lt mem (i + 1))) (by norm_num),
      shiftRight_eq_zero (readU8fn mem (i + 2) <<< 16) 24 24
        (shiftLeft_lt_of_lt _ 16 8 (readU8fn_lt mem (i + 2))) le_rfl,
      shiftLeft_shiftRight_self _ 24]
    simp only [Nat.zero_or, Nat.shiftLeft_zero, e256]
    exact Nat.mod_eq_of_lt (readU8fn_lt mem (i + 3))

theorem loHalf_mirror (x : ℕ) (h : x < 2 ^ 16) : loHalf (mirror_16to32 x) = x := by
  unfold loHalf mirror_16to32 concat16
  rw [lor_mod_two_pow, shiftLeft_mod_self, Nat.mod_eq_of_lt h]
  simp

theorem hiHalf_mirror (x : ℕ) (h : x < 2 ^ 16) : hiHalf (mirror_16to32 x) = x := by
  unfold hiHalf mirror_16to32 concat16
  rw [← Nat.shiftRight_eq_div_pow, lor_shiftRight, shiftLeft_shiftRight_self,
    shiftRight_eq_zero x 16 16 h le_rfl, Nat.or_zero]
  exact Nat.mod_eq_of_lt h

theorem concat16_readU32fn (mem : ℕ → ℕ) (i : ℕ) :
    concat16 (readU16fn mem (i + 2)) (readU16fn mem i) = readU32fn mem i := by
  unfold concat16 readU16fn readU32fn
  rw [show i + 2 + 1 = i + 3 by omega, lor_shiftLeft,
    show readU8fn mem (i + 3) <<< 8 <<< 16 = readU8fn mem (i + 3) <<< 24 by
      simp [Nat.shiftLeft_eq, Nat.mul_assoc, ← pow_add]]
  rw [Nat.lor_comm]
  simp [Nat.lor_assoc]

theorem and_three_eq_mod (n : ℕ) : n &&& 3 = n % 4 := by
  rw [show (3 : ℕ) = 2 ^ 2 - 1 from by norm_num, Nat.and_pow_two_sub_one_eq_mod]

theorem and_ffff_eq_mod (n : ℕ) : n &&& 0xFFFF = n % 2 ^ 16 := by
  rw [show (0xFFFF : ℕ) = 2 ^ 16 - 1 from by norm_num, Nat.and_pow_two_sub_one_eq_mod]

theorem and_ffffffff_eq_mod (n : ℕ) : n &&& 0xFFFFFFFF = n % 2 ^ 32 := by
  rw [show (0xFFFFFFFF : ℕ) = 2 ^ 32 - 1 from by norm_num, Nat.and_pow_two_sub_one_eq_mod]

theorem and_two_cases (n : ℕ) : n &&& 2 = 0 ∨ n &&& 2 = 2 := by
  have hle : n &&& 2 ≤ 2 := Nat.and_le_right
  have heven : (n &&& 2) % 2 ≠ 1 := by simp
  omega

theorem and_fffffffe_self (n : ℕ) (h32 : n < 2 ^ 32) (h0 : n % 2 = 0) :
    n &&& 0xFFFFFFFE = n := by
  apply Nat.eq_of_testBit_eq
  intro i
  rw [show (0xFFFFFFFE : ℕ) = (2 ^ 31 - 1) <<< 1 from by decide]
  simp only [Nat.testBit_and, Nat.testBit_shiftLeft, Nat.testBit_two_pow_sub_one]
  rcases Nat.eq_zero_or_pos i with hi | hi
  · subst hi
    simp [Nat.testBit_zero]
    omega
  · rcases Nat.lt_or_ge i 32 with h32i | h32i
    · have : 1 ≤ i ∧ i - 1 < 31 := by omega
      simp [this.1, this.2]
    · have hbit : n.testBit i = false :=
        Nat.testBit_lt_two_pow (lt_of_lt_of_le h32 (Nat.pow_le_pow_right (by norm_num) h32i))
      simp [hbit]

theorem xor_two_of_mod_four (n : ℕ) (h : n % 4 = 0) : n ^^^ 2 = n + 2 := by
  obtain ⟨k, hk⟩ : ∃ k, n = 2 ^ 2 * k := ⟨n / 4, by omega⟩
  subst hk
  apply Nat.eq_of_testBit_eq
  intro i
  have h2 : (2 : ℕ) < 2 ^ 2 := by norm_num
  have h0 : (0 : ℕ) < 2 ^ 2 := by norm_num
  rw [show 2 ^ 2 * k + 2 = 2 ^ 2 * k + 2 from rfl, Nat.testBit_mul_pow_two_add k h2,
    Nat.testBit_xor, show 2 ^ 2 * k = 2 ^ 2 * k + 0 from by omega,
    Nat.testBit_mul_pow_two_add k h0]
  rcases Nat.lt_or_ge i 2 with hi | hi
  · interval_cases i <;> simp
  · have : ¬ i < 2 := by omega
    simp only [this, if_false]
    have : (2 : ℕ).testBit i = false := by
      rw [show (2 : ℕ) = 2 ^ 1 from by norm_num, Nat.testBit_two_pow]
      simp
      omega
    simp [this]

theorem lexLe_refl (a : ScheduledTask) : a.lexLe a = true := by
  simp [ScheduledTask.lexLe]

theorem lexLe_trans {a b c : ScheduledTask} (h1 : a.lexLe b = true) (h2 : b.lexLe c = true) :
    a.lexLe c = true := by
  simp only [ScheduledTask.lexLe, Bool.or_eq_true, Bool.and_eq_true, decide_eq_true_eq,
    beq_iff_eq] at h1 h2 ⊢
  omega

theorem lexLe_total (a b : ScheduledTask) : a.lexLe b = true ∨ b.lexLe a = true := by
  simp only [ScheduledTask.lexLe, Bool.or_eq_true, Bool.and_eq_true, decide_eq_true_eq,
    beq_iff_eq]
  omega

theorem popMinGo_spec (l : List ScheduledTask) :
    ∀ best acc, ((popMinGo best acc l).1.lexLe best = true)
      ∧ ∀ e ∈ l, (popMinGo best acc l).1.lexLe e = true := by
  induction l with
  | nil =>
    intro best acc
    exact ⟨lexLe_refl best, by simp⟩
  | cons e rest ih =>
    intro best acc
    simp only [popMinGo]
    by_cases hbe : best.lexLe e = true
    · rw [if_pos hbe]
      obtain ⟨h1, h2⟩ := ih best (e :: acc)
      exact ⟨h1, by
        intro x hx
        rcases List.mem_cons.mp hx with hx | hx
        · subst hx
          exact lexLe_trans h1 hbe
        · exact h2 x hx⟩
    · rw [if_neg hbe]
      obtain ⟨h1, h2⟩ := ih e (best :: acc)
      have heb : e.lexLe best = true := (lexLe_total best e).resolve_left hbe
      exact ⟨lexLe_trans h1 heb, by
        intro x hx
        rcases List.mem_cons.mp hx with hx | hx
        · subst hx
          exact h1
        · exact h2 x hx⟩

theorem popMin_min {q : List ScheduledTask} {e : ScheduledTask} {rest : List ScheduledTask}
    (h : popMin q = some (e, rest)) : ∀ x ∈ q, e.lexLe x = true := by
  cases q with
  | nil => simp [popMin] at h
  | cons hd tl =>
    simp only [popMin, Option.some.injEq] at h
    obtain ⟨h1, h2⟩ := popMinGo_spec tl hd []
    intro x hx
    rcases List.mem_cons.mp hx with hx | hx
    · rw [hx, show e = (popMinGo hd [] tl).1 from by rw [h]]
      exact h1
    · rw [show e = (popMinGo hd [] tl).1 from by rw [h]]
      exact h2 x hx


theorem runLoop_trace_mono (stop : ℕ) :
    ∀ fuel (s : TaskScheduler) (trace : List TraceEvent),
      runLoop stop fuel s trace = .outOfFuel
      ∨ ∃ t2, (runLoop stop fuel s trace).getTrace = trace ++ t2 := by
  intro fuel
  induction fuel with
  | zero => intro s trace; left; rfl
  | succ n ih =>
    intro s trace
    rw [runLoop]
    split
    · right
      exact ⟨[], by simp [RunResult.getTrace]⟩
    · split
      · right
        exact ⟨[], by simp [RunResult.getTrace]⟩
      · split
        · right
          exact ⟨[], by simp [RunResult.getTrace]⟩
        · right
          exact ⟨[], by simp [RunResult.getTrace]⟩
        · split
          · rcases ih _ _ with hof | ⟨t2, ht2⟩
            · left
              exact hof
            · right
              exact ⟨_, by rw [ht2, List.append_assoc]⟩
          · rcases ih _ _ with hof | ⟨t2, ht2⟩
            · left
              exact hof
            · right
              exact ⟨_, by rw [ht2, List.append_assoc, List.append_assoc]⟩

theorem pick_top_two_fold_min (key : Layer → ℕ) :
    ∀ (rest : List Layer) (first : Layer) (second : Option Layer),
      key (pick_top_two_fold key first second rest).1 ≤ key first
      ∧ ∀ e ∈ rest, key (pick_top_two_fold key first second rest).1 ≤ key e := by
  intro rest
  induction rest with
  | nil =>
    intro first second
    exact ⟨le_rfl, by simp⟩
  | cons e tl ih =>
    intro first second
    simp only [pick_top_two_fold]
    by_cases hef : key e < key first
    · rw [if_pos hef]
      obtain ⟨h1, h2⟩ := ih e (some first)
      refine ⟨le_of_lt (lt_of_le_of_lt h1 hef), ?_⟩
      intro x hx
      rcases List.mem_cons.mp hx with hx | hx
      · rw [hx]
        exact h1
      · exact h2 x hx
    · rw [if_neg hef]
      obtain ⟨h1, h2⟩ := ih first second
      refine ⟨h1, ?_⟩
      intro x hx
      rcases List.mem_cons.mp hx with hx | hx
      · rw [hx]
        exact le_trans h1 (le_of_not_lt hef)
      · exact h2 x hx

theorem pick_top_two_fold_leftmost (key : Layer → ℕ) :
    ∀ (rest : List Layer) (first : Layer) (second : Option Layer),
      (pick_top_two_fold key first second rest).1 = first
      ∨ ∃ i e, rest.get? i = some e ∧ (pick_top_two_fold key first second rest).1 = e
          ∧ key e < key first
          ∧ ∀ j, j < i → ∀ e', rest.get? j = some e' → key e < key e' := by
  intro rest
  induction rest with
  | nil =>
    intro first second
    left
    rfl
  | cons e tl ih =>
    intro first second
    simp only [pick_top_two_fold]
    by_cases hef : key e < key first
    · rw [if_pos hef]
      rcases ih e (some first) with hl | ⟨i, e2, hget, hres, hlt, hmin⟩
      · right
        exact ⟨0, e, rfl, hl, hef, by omega⟩
      · right
        refine ⟨i + 1, e2, by simpa using hget, hres, lt_trans hlt hef, ?_⟩
        intro j hj e' hj'
        cases j with
        | zero =>
          simp only [List.get?_cons_zero, Option.some.injEq] at hj'
          rw [← hj']
          exact hlt
        | succ j' =>
          simp only [List.get?_cons_succ] at hj'
          exact hmin j' (by omega) e' hj'
    · rw [if_neg hef]
      rcases ih first second with hl | ⟨i, e2, hget, hres, hlt, hmin⟩
      · left
        exact hl
      · right
        refine ⟨i + 1, e2, by simpa using hget, hres, hlt, ?_⟩
        intro j hj e' hj'
        cases j with
        | zero =>
          simp only [List.get?_cons_zero, Option.some.injEq] at hj'
          rw [← hj']
          exact lt_of_lt_of_le hlt (le_of_not_lt hef)
        | succ j' =>
          simp only [List.get?_cons_succ] at hj'
          exact hmin j' (by omega) e' hj'

theorem pick_top_two_layers_spec (layers : List (Option Layer)) (top : Layer)
    (second : Option Layer) (h : pick_top_two_layers layers = some (top, second)) :
    (∀ l ∈ layers.filterMap id, top.priority ≤ l.priority)
    ∧ ∃ i, (layers.filterMap id).get? i = some top
        ∧ ∀ j, j < i → ∀ l', (layers.filterMap id).get? j = some l' →
            top.priority < l'.priority := by
  unfold pick_top_two_layers pick_top_two at h
  rcases hc : layers.filterMap id with _ | ⟨c0, ctl⟩
  · rw [hc] at h
    simp at h
  · rw [hc] at h
    simp only [Option.some.injEq] at h
    have htop : top = (pick_top_two_fold (fun l => l.priority) c0 none ctl).1 := by
      have h' := congrArg Prod.fst h
      simp at h'
      exact h'.symm
    obtain ⟨h1, h2⟩ := pick_top_two_fold_min (fun l => l.priority) ctl c0 none
    constructor
    · intro l hl
      rw [htop]
      rcases List.mem_cons.mp hl with hl | hl
      · rw [hl]
        exact h1
      · exact h2 l hl
    · rcases pick_top_two_fold_leftmost (fun l => l.priority) ctl c0 none with hl |
        ⟨i, e, hget, hres, hlt, hmin⟩
      · refine ⟨0, by simp [htop, hl], ?_⟩
        omega
      · refine ⟨i + 1, ?_, ?_⟩
        · rw [List.get?_cons_succ, htop, hres]
          exact hget
        · intro j hj l' hj'
          cases j with
          | zero =>
            simp only [List.get?_cons_zero, Option.some.injEq] at hj'
            rw [← hj', htop, hres]
            exact hlt
          | succ j' =>
            simp only [List.get?_cons_succ] at hj'
            rw [htop, hres]
            exact hmin j' (by omega) l' hj'

theorem pick_top_two_layers_isSome (layers : List (Option Layer)) (l : Layer)
    (h : some l ∈ layers) : ∃ top second, pick_top_two_layers layers = some (top, second) := by
  have hmem : l ∈ layers.filterMap id := by
    rw [List.mem_filterMap]
    exact ⟨some l, h, rfl⟩
  rcases hc : layers.filterMap id with _ | ⟨c0, ctl⟩
  · rw [hc] at hmem
    simp at hmem
  · refine ⟨(pick_top_two_fold (fun x => x.priority) c0 none ctl).1,
      (pick_top_two_fold (fun x => x.priority) c0 none ctl).2, ?_⟩
    unfold pick_top_two_layers pick_top_two
    rw [hc]

theorem optionMapRange_isSome (f : ℕ → Option ℕ) :
    ∀ n, (∀ k, k < n → (f k).isSome = true) → (optionMapRange f n).isSome = true := by
  intro n
  induction n with
  | zero => intro _; rfl
  | succ m ih =>
    intro h
    have hrec := ih (fun k hk => h k (by omega))
    rcases hr : optionMapRange f m with _ | xs
    · rw [hr] at hrec
      simp at hrec
    · rcases hf : f m with _ | a
      · have := h m (by omega)
        rw [hf] at this
        simp at this
      · simp [optionMapRange, hr, hf]

theorem optionMapRange_get? (f : ℕ → Option ℕ) :
    ∀ n l, optionMapRange f n = some l → l.length = n ∧ ∀ k, k < n → l.get? k = f k := by
  intro n
  induction n with
  | zero =>
    intro l h
    simp only [optionMapRange, Option.some.injEq] at h
    subst h
    exact ⟨rfl, by omega⟩
  | succ m ih =>
    intro l h
    simp only [optionMapRange, Option.bind_eq_bind, Option.bind_eq_some, Option.pure_def,
      Option.some.injEq] at h
    obtain ⟨xs, hxs, a, ha, hl⟩ := h
    obtain ⟨hlen, hget⟩ := ih xs hxs
    subst hl
    constructor
    · simp [hlen]
    · intro k hk
      rcases Nat.lt_or_ge k m with hkm | hkm
      · rw [List.get?_append (by omega), hget k hkm]
      · have hkeq : k = m := by omega
        subst hkeq
        rw [← hlen, List.get?_concat_length, hlen, ha]

/-! ## Claim theorems -/

/-- C1: the claim states that the CPSR condition flags occupy distinct
bits with C at 29 and V at 28, so setting V changes only bit 28, leaves C
unchanged, and reading V reads bit 28. The source's `flag_field!`
instantiation places BOTH carry and overflow at bit 29: setting V on an
all-clear CPSR produces `0x20000000` (bit 29, not bit 28), the C flag
then reads back `true` although it was never set, and reading V on a CPSR
whose bit 28 is set yields `false`. -/
theorem cpsr_overflow_bit29_bug :
    (Cpsr.set_overflow ⟨0⟩ true).val = 0x20000000
    ∧ Cpsr.carry ⟨0⟩ = false
    ∧ Cpsr.carry (Cpsr.set_overflow ⟨0⟩ true) = true
    ∧ Cpsr.overflow ⟨0x10000000⟩ = false := by decide

/-- C2: the claim states that an executed BranchImm sets
`new_pc = pc + (sign_extend_24(offset) << 2)` so that negative offsets
branch backwards. The decoder extracts the 24-bit offset unsigned
(`bits instr 0 23`) and `step_execute_fsm` computes
`pc.wrapping_add(offset * 4)` without any sign extension: for the
instruction `0xEAFFFFFE` (`b .`, offset `0xFFFFFE` = −2) executed with
`pc = 8`, the code jumps to `0x04000000` while the spec's formula gives
`0`. The link-register and pipeline-refill parts behave as claimed; the
sign extension is missing. -/
theorem branch_imm_no_sign_extension :
    decode_arm_instruction 0xEAFFFFFE = .branchImm 14 false 0xFFFFFE
    ∧ (step_execute_fsm cpuAtPc8 .firstCycle 0xEAFFFFFE).map
        (fun p => (p.1.regs 15, p.2)) = some (0x4000000, .pipelineRefill1)
    ∧ spec_branch_new_pc 8 0xFFFFFE = 0
    ∧ (0x4000000 : ℕ) ≠ 0 := by decide

/-- C4 counterexample: the claim states that `make_request` aborts with an
assertion failure whenever a request is already outstanding. The source's
`Bus::make_request` contains no assertion: on a bus whose latch already
holds `req1`, a second `make_request` returns normally and silently
overwrites the latch with `req2`, whereas the spec-modelled asserting
version (`spec_make_request`) aborts on the same input. -/
theorem make_request_overwrites_counterexample :
    Bus.make_request busPending req2
      = { request := some req2, busy := false, dmaActive := false, data := 7 }
    ∧ spec_make_request busPending req2 = none := by decide

/-- C4 amended: `make_request` stores the request unconditionally; when a
request is already outstanding, a second `make_request` in the same cycle
silently replaces the pending request in the latch (no assertion, no
abort), leaving every other bus field unchanged. -/
theorem make_request_no_assertion (b : Bus) (r : MemoryRequest)
    (h : b.request.isSome = true) :
    (Bus.make_request b r).request = some r
    ∧ (Bus.make_request b r).busy = b.busy
    ∧ (Bus.make_request b r).dmaActive = b.dmaActive
    ∧ (Bus.make_request b r).data = b.data := by
  simp [Bus.make_request]

/-- C4 witness: the amended theorem applied to the concrete contended bus. -/
theorem make_request_no_assertion_witness :
    (Bus.make_request busPending req2).request = some req2
    ∧ (Bus.make_request busPending req2).busy = busPending.busy
    ∧ (Bus.make_request busPending req2).dmaActive = busPending.dmaActive
    ∧ (Bus.make_request busPending req2).data = busPending.data :=
  make_request_no_assertion busPending req2 (by decide)

/-- C10: whenever `should_cpu_wait()` is true (bus busy or DMA active) at
the start of `ArmCpu::step`, the step is a complete no-op: the step
returns immediately, so no bus request is issued and the registers, CPSR,
pipeline latches and execute state are all unchanged. -/
theorem cpu_step_waits_noop (cpu : ArmCpu) (bus : Bus)
    (h : bus.should_cpu_wait = true) : ArmCpu.step cpu bus = some (cpu, bus) := by
  simp [ArmCpu.step, h]

/-- C10 witness: a busy bus leaves the freshly reset CPU and the bus
untouched. -/
theorem cpu_step_waits_noop_witness :
    ArmCpu.step ArmCpu.new busBusy = some (ArmCpu.new, busBusy) :=
  cpu_step_waits_noop ArmCpu.new busBusy (by decide)

/-- C6: the claim states the invariant that every task id in the priority
queue has a live entry in the task map, so popping always finds its task.
The completion path of `run_for` calls `active_tasks.remove(task_id)`
(`Vec::remove`), which shifts every later slot down by one. With task 0
completing immediately while task 1 (yields `[5]`) is still queued,
`run_for(1)` first resumes task 0, removes it, and shifts task 1 into
slot 0; the queue still holds the entry `(0, 1)`, whose lookup then fails
and the source's `.unwrap()` panics. The intermediate scheduler state
violates the invariant. -/
theorem queue_task_map_invariant_panic :
    run_for schedulerTwoTasks 1 10 = .panicked [.resume 0 0]
    ∧ schedulerTwoTasks.scheduledTasks = [⟨0, 0⟩, ⟨0, 1⟩]
    ∧ ¬ queueMapInvariant
        { currentTime := 0, scheduledTasks := [⟨0, 1⟩], activeTasks := [some [5]] } := by
  refine ⟨by decide, by decide, ?_⟩
  intro h
  have := h ⟨0, 1⟩ (by decide)
  simp [List.get?] at this

/-- C5 counterexample: the claim states that tasks scheduled for the same
due time are resumed in the order they were enqueued, including after a
task re-enqueues itself by yielding. In this run (task 0 yields 2, 3, 9;
task 1 yields 5, 9; `run_for(6)`), the trace shows `enqueue 5 1` (task 1
enqueued for time 5, during the resumption at time 0) happening before
`enqueue 5 0` (task 0 enqueued for time 5, during its resumption at time
2) — yet at due time 5 the scheduler resumes task 0 first
(`resume 5 0` precedes `resume 5 1`), because `ScheduledTask::cmp`
breaks due-time ties by `task_id`, not by enqueue order (there is no
scheduling id in the source). -/
theorem equal_due_fifo_counterexample :
    (run_for schedulerC5 6 20).getTrace =
      [.resume 0 0, .enqueue 2 0, .resume 0 1, .enqueue 5 1, .resume 2 0, .enqueue 5 0,
       .resume 5 0, .enqueue 14 0, .resume 5 1, .enqueue 14 1] := by decide

/-- C5 amended: among the entries of the scheduler's queue, `run_for`
always pops (and therefore resumes) an entry that is minimal in the
lexicographic `(scheduled_at, task_id)` order: equal-due-time tasks are
resumed in ascending `task_id` order — the order the tasks were
originally added via `add_new_task` — not the order of their latest
enqueue; a task that re-enqueues itself by yielding keeps its original
`task_id` for tie-breaking. Moreover, when the popped entry is due and
its task is live, the loop's first traced event is exactly that entry's
resumption. -/
theorem equal_due_taskid_order (q : List ScheduledTask) (e : ScheduledTask)
    (rest : List ScheduledTask) (h : popMin q = some (e, rest)) :
    (∀ x ∈ q, e.scheduledAt < x.scheduledAt
      ∨ (e.scheduledAt = x.scheduledAt ∧ e.taskId ≤ x.taskId))
    ∧ (∀ x ∈ q, x.scheduledAt = e.scheduledAt → e.taskId ≤ x.taskId)
    ∧ ∀ (t stop fuel : ℕ) (acts : List (Option (List ℕ))) (task : List ℕ),
        e.scheduledAt < stop → acts.get? e.taskId = some (some task) →
        runLoop stop (fuel + 1) ⟨t, q, acts⟩ [] = .outOfFuel
        ∨ ∃ t2, (runLoop stop (fuel + 1) ⟨t, q, acts⟩ []).getTrace
            = .resume e.scheduledAt e.taskId :: t2 := by
  have hmin := popMin_min h
  have hlex : ∀ x ∈ q, e.scheduledAt < x.scheduledAt
      ∨ (e.scheduledAt = x.scheduledAt ∧ e.taskId ≤ x.taskId) := by
    intro x hx
    have := hmin x hx
    simp only [ScheduledTask.lexLe, Bool.or_eq_true, Bool.and_eq_true, decide_eq_true_eq,
      beq_iff_eq] at this
    omega
  refine ⟨hlex, ?_, ?_⟩
  · intro x hx hat
    rcases hlex x hx with h1 | h1 <;> omega
  · intro t stop fuel acts task hdue hlook
    have hq : popMin (⟨t, q, acts⟩ : TaskScheduler).scheduledTasks = some (e, rest) := h
    rw [runLoop, hq]
    dsimp only
    rw [if_neg (not_le.mpr hdue)]
    have hlook' : (⟨t, q, acts⟩ : TaskScheduler).activeTasks.get? e.taskId
        = some (some task) := hlook
    rw [hlook']
    dsimp only
    simp only [List.nil_append]
    cases task with
    | nil =>
      rcases runLoop_trace_mono stop fuel
          ⟨t, rest, acts.eraseIdx e.taskId⟩ [TraceEvent.resume e.scheduledAt e.taskId]
        with hof | ⟨t2, ht2⟩
      · left
        exact hof
      · right
        exact ⟨t2, by rw [ht2]; rfl⟩
    | cons c tl =>
      rcases runLoop_trace_mono stop fuel
          ⟨t, rest ++ [⟨e.scheduledAt + c, e.taskId⟩], acts.set e.taskId (some tl)⟩
          ([TraceEvent.resume e.scheduledAt e.taskId]
            ++ [TraceEvent.enqueue (e.scheduledAt + c) e.taskId])
        with hof | ⟨t2, ht2⟩
      · left
        exact hof
      · right
        exact ⟨TraceEvent.enqueue (e.scheduledAt + c) e.taskId :: t2, by rw [ht2]; rfl⟩

/-- C5 witness: the amended theorem applied to a queue holding entries
`(5, 1)` and `(5, 0)`: the popped (and first-resumed) entry is task 0,
the smaller task id. -/
theorem equal_due_taskid_order_witness :
    runLoop 6 (5 + 1) ⟨0, [⟨5, 1⟩, ⟨5, 0⟩], [some [], some []]⟩ [] = .outOfFuel
    ∨ ∃ t2, (runLoop 6 (5 + 1) ⟨0, [⟨5, 1⟩, ⟨5, 0⟩], [some [], some []]⟩ []).getTrace
        = .resume 5 0 :: t2 :=
  (equal_due_taskid_order [⟨5, 1⟩, ⟨5, 0⟩] ⟨5, 0⟩ [⟨5, 1⟩] (by decide)).2.2
    0 6 5 [some [], some []] [] (by decide) (by decide)

/-- C7: on every instruction-fetch request the memory unit sets
`bios_unlocked := (fetch_address < 0x4000)` regardless of the addressed
region; and a read of the BIOS region while locked (after that update)
returns the previously cached `last_bios_read` word without touching the
BIOS bytes: two memory units that differ only in BIOS contents, with the
same cached word and lock state, produce identical bus results for locked
BIOS reads, so user code cannot read BIOS via data loads. -/
theorem bios_lock_noninterference (mem1 mem2 : MemoryUnit) (bus : Bus) (req : MemoryRequest)
    (hreq : bus.request = some req)
    (hlock : mem1.biosUnlocked = mem2.biosUnlocked)
    (hcache : mem1.lastBiosRead = mem2.lastBiosRead)
    (hew : mem1.ewram = mem2.ewram) (hiw : mem1.iwram = mem2.iwram) :
    (req.op = .read true →
      (memHandleRequest mem1 bus).1.biosUnlocked = decide (req.address < 0x4000))
    ∧ ∀ instr, req.op = .read instr → bits req.address 24 31 = 0 →
        (if instr then 0x4000 ≤ req.address else mem1.biosUnlocked = false) →
        (memHandleRequest mem1 bus).2.data = mem1.lastBiosRead
        ∧ (memHandleRequest mem1 bus).2 = (memHandleRequest mem2 bus).2
        ∧ (memHandleRequest mem1 bus).1.lastBiosRead = mem1.lastBiosRead := by
  constructor
  · intro hop
    unfold memHandleRequest
    rw [hreq]
    try dsimp only
    rw [hop]
    try dsimp only
    split
    · split <;> rfl
    · split <;> rfl
    · rfl
    · rfl
  · intro instr hop hregion hlocked
    cases instr with
    | true =>
      have hge : 0x4000 ≤ req.address := by simpa using hlocked
      have hdec : decide (req.address < 0x4000) = false := by
        simp
        omega
      unfold memHandleRequest
      rw [hreq]
      try dsimp only
      rw [hop]
      try dsimp only
      rw [hregion]
      rw [hdec]
      dsimp only
      rw [if_neg (by simp), if_neg (by simp)]
      exact ⟨rfl, by rw [hcache], rfl⟩
    | false =>
      have hunlocked1 : mem1.biosUnlocked = false := by simpa using hlocked
      have hunlocked2 : mem2.biosUnlocked = false := by rw [← hlock]; exact hunlocked1
      unfold memHandleRequest
      rw [hreq]
      try dsimp only
      rw [hop]
      try dsimp only
      rw [hregion]
      try dsimp only
      rw [if_neg (by rw [hunlocked1]; simp), if_neg (by rw [hunlocked2]; simp)]
      exact ⟨rfl, by rw [hcache], rfl⟩

/-- C7 witness: two locked units differing only in BIOS contents serve
the same cached word `0x12345678` for a data read of BIOS address
`0x100`. -/
theorem bios_lock_noninterference_witness :
    (memHandleRequest memBiosA busBiosRead).2.data = memBiosA.lastBiosRead
    ∧ (memHandleRequest memBiosA busBiosRead).2 = (memHandleRequest memBiosB busBiosRead).2
    ∧ (memHandleRequest memBiosA busBiosRead).1.lastBiosRead = memBiosA.lastBiosRead :=
  (bios_lock_noninterference memBiosA memBiosB busBiosRead
      { address := 0x100, width := .bit32, op := .read false, seq := false }
      rfl rfl rfl rfl rfl).2
    false rfl (by decide) (by simp [memBiosA])

theorem testBit_loHalf (x i : ℕ) : (loHalf x).testBit i = (decide (i < 16) && x.testBit i) := by
  unfold loHalf
  rw [Nat.testBit_mod_two_pow]

theorem testBit_hiHalf (x i : ℕ) :
    (hiHalf x).testBit i = (decide (i < 16) && x.testBit (16 + i)) := by
  unfold hiHalf
  rw [Nat.testBit_mod_two_pow, ← Nat.shiftRight_eq_div_pow, Nat.testBit_shiftRight]

theorem testBit_byteLane (x k i : ℕ) :
    (byteLane x k).testBit i = (decide (i < 8) && x.testBit (8 * k + i)) := by
  unfold byteLane
  rw [show (256 : ℕ) = 2 ^ 8 from by norm_num, Nat.testBit_mod_two_pow,
    ← Nat.shiftRight_eq_div_pow, Nat.testBit_shiftRight]

theorem merge_mask_testBit (data read mask : ℕ) (i : ℕ) :
    ((data &&& (0xFFFFFFFF ^^^ mask)) ||| (read &&& mask)).testBit i
      = ((data.testBit i && (decide (i < 32) ^^ mask.testBit i))
          || (read.testBit i && mask.testBit i)) := by
  rw [Nat.testBit_or, Nat.testBit_and, Nat.testBit_and, Nat.testBit_xor,
    show (0xFFFFFFFF : ℕ) = 2 ^ 32 - 1 from by norm_num, Nat.testBit_two_pow_sub_one]

theorem testBit_ffff (i : ℕ) : (0xFFFF : ℕ).testBit i = decide (i < 16) := by
  rw [show (0xFFFF : ℕ) = 2 ^ 16 - 1 from by norm_num, Nat.testBit_two_pow_sub_one]

theorem testBit_ffff_shl16 (i : ℕ) :
    ((0xFFFF : ℕ) <<< 16).testBit i = (decide (16 ≤ i) && decide (i - 16 < 16)) := by
  rw [Nat.testBit_shiftLeft, testBit_ffff]

theorem testBit_ff_shl (j i : ℕ) :
    ((0xFF : ℕ) <<< (j * 8)).testBit i = (decide (j * 8 ≤ i) && decide (i - j * 8 < 8)) := by
  rw [Nat.testBit_shiftLeft, show (0xFF : ℕ) = 2 ^ 8 - 1 from by norm_num,
    Nat.testBit_two_pow_sub_one]

/-- C3 counterexample: the claim states that a 16-bit read leaves the
selected half-word duplicated into both halves of `bus.data`. For a
16-bit IWRAM read of address `0x03000000` (word `0x11223344` in IWRAM,
previous bus data 0), the handler merges only the addressed half into the
previous bus value ("to simulate bus capacitance") and produces
`0x00003344`, not the duplicated `0x33443344` the claim requires. -/
theorem iwram_read16_not_mirrored_counterexample :
    (memHandleRequest memIwramSample busRead16).2.data = 0x3344
    ∧ mirror_16to32 (readU16fn memIwramSample.iwram 0) = 0x33443344
    ∧ (0x3344 : ℕ) ≠ 0x33443344 := by decide

/-- C3 amended: for reads handled by the memory unit, (1) a 32-bit IWRAM
read returns the addressed (word-aligned) word verbatim; (2, 3) a 16-bit
IWRAM read replaces only the addressed half of the previous bus data with
the selected half-word and leaves the other half unchanged (bus
capacitance), rather than duplicating it; (4) an 8-bit IWRAM read
replaces only the addressed byte lane and leaves the other three lanes of
the previous bus data unchanged; (5) an 8-bit or 16-bit EWRAM read sets
`bus.data` to the containing (2-byte-aligned) half-word duplicated into
both halves — so for 8-bit reads the half-word, not the byte, is
mirrored; (6) a 32-bit EWRAM read of a word-aligned address returns the
addressed word verbatim. -/
theorem memory_read_lane_rules :
    (∀ (mem : ℕ → ℕ) (offset data : ℕ) (b : Bool),
      (do_iwram_rw32 data mem offset (.read b) .bit32).1 = readU32fn mem (offset &&& 0xFFFFFFFC))
    ∧ (∀ (mem : ℕ → ℕ) (offset data : ℕ) (b : Bool), offset &&& 0b10 = 0 →
        loHalf (do_iwram_rw32 data mem offset (.read b) .bit16).1
          = readU16fn mem (offset &&& 0xFFFFFFFC)
        ∧ hiHalf (do_iwram_rw32 data mem offset (.read b) .bit16).1 = hiHalf data)
    ∧ (∀ (mem : ℕ → ℕ) (offset data : ℕ) (b : Bool), offset &&& 0b10 = 2 →
        hiHalf (do_iwram_rw32 data mem offset (.read b) .bit16).1
          = readU16fn mem ((offset &&& 0xFFFFFFFC) + 2)
        ∧ loHalf (do_iwram_rw32 data mem offset (.read b) .bit16).1 = loHalf data)
    ∧ (∀ (mem : ℕ → ℕ) (offset data : ℕ) (b : Bool),
        byteLane (do_iwram_rw32 data mem offset (.read b) .bit8).1 (offset &&& 0b11)
          = readU8fn mem ((offset &&& 0xFFFFFFFC) + (offset &&& 0b11))
        ∧ ∀ k, k < 4 → k ≠ offset &&& 0b11 →
            byteLane (do_iwram_rw32 data mem offset (.read b) .bit8).1 k = byteLane data k)
    ∧ (∀ (mem : MemoryUnit) (bus : Bus) (req : MemoryRequest) (b : Bool),
        bus.request = some req → req.op = .read b → bits req.address 24 31 = 2 →
        req.width = .bit8 ∨ req.width = .bit16 →
        loHalf (memHandleRequest mem bus).2.data
          = readU16fn mem.ewram ((req.address &&& 0x3FFFF) &&& 0xFFFFFFFE)
        ∧ hiHalf (memHandleRequest mem bus).2.data = loHalf (memHandleRequest mem bus).2.data)
    ∧ (∀ (mem : MemoryUnit) (bus : Bus) (req : MemoryRequest) (b : Bool),
        bus.request = some req → req.op = .read b → bits req.address 24 31 = 2 →
        req.width = .bit32 → (req.address &&& 0x3FFFF) &&& 3 = 0 →
        (memHandleRequest mem bus).2.data = readU32fn mem.ewram (req.address &&& 0x3FFFF)) := by
  refine ⟨?_, ?_, ?_, ?_, ?_, ?_⟩
  · -- (1) 32-bit IWRAM read
    intro mem offset data b
    unfold do_iwram_rw32
    dsimp only
    rw [Nat.xor_self, Nat.and_zero, Nat.zero_or, and_ffffffff_eq_mod,
      Nat.mod_eq_of_lt (readU32fn_lt mem _)]
  · -- (2) 16-bit IWRAM read, low half selected
    intro mem offset data b h2
    unfold do_iwram_rw32
    dsimp only
    rw [h2, Nat.zero_mul, Nat.shiftLeft_zero]
    constructor
    · rw [← loHalf_readU32fn mem (offset &&& 0xFFFFFFFC)]
      apply Nat.eq_of_testBit_eq
      intro i
      rw [testBit_loHalf, testBit_loHalf, merge_mask_testBit, testBit_ffff]
      by_cases hi : i < 16
      · simp [hi, show i < 32 from by omega]
      · simp [hi]
    · apply Nat.eq_of_testBit_eq
      intro i
      rw [testBit_hiHalf, testBit_hiHalf, merge_mask_testBit, testBit_ffff]
      by_cases hi : i < 16
      · simp [hi, show ¬ (16 + i < 16) from by omega, show 16 + i < 32 from by omega]
      · simp [hi]
  · -- (3) 16-bit IWRAM read, high half selected
    intro mem offset data b h2
    unfold do_iwram_rw32
    dsimp only
    rw [h2, show (2 : ℕ) * 8 = 16 from by norm_num]
    constructor
    · rw [← hiHalf_readU32fn mem (offset &&& 0xFFFFFFFC)]
      apply Nat.eq_of_testBit_eq
      intro i
      rw [testBit_hiHalf, testBit_hiHalf, merge_mask_testBit, testBit_ffff_shl16]
      by_cases hi : i < 16
      · simp [hi, show 16 ≤ 16 + i from by omega, show 16 + i - 16 < 16 from by omega,
          show 16 + i < 32 from by omega]
      · simp [hi]
    · apply Nat.eq_of_testBit_eq
      intro i
      rw [testBit_loHalf, testBit_loHalf, merge_mask_testBit, testBit_ffff_shl16]
      by_cases hi : i < 16
      · simp [hi, show ¬ (16 ≤ i) from by omega, show i < 32 from by omega]
      · simp [hi]
  · -- (4) 8-bit IWRAM read: selected byte lane from memory, others kept
    intro mem offset data b
    have hj : offset &&& 0b11 < 4 := by
      have := Nat.and_le_right (n := offset) (m := 3)
      omega
    constructor
    · unfold do_iwram_rw32
      dsimp only
      rw [← byteLane_readU32fn mem (offset &&& 0xFFFFFFFC) (offset &&& 0b11) hj]
      apply Nat.eq_of_testBit_eq
      intro i
      rw [testBit_byteLane, testBit_byteLane, merge_mask_testBit, testBit_ff_shl]
      by_cases hi : i < 8
      · simp [hi, show (offset &&& 0b11) * 8 ≤ 8 * (offset &&& 0b11) + i from by omega,
          show 8 * (offset &&& 0b11) + i - (offset &&& 0b11) * 8 < 8 from by omega,
          show 8 * (offset &&& 0b11) + i < 32 from by omega]
      · simp [hi]
    · intro k hk hkj
      unfold do_iwram_rw32
      dsimp only
      apply Nat.eq_of_testBit_eq
      intro i
      rw [testBit_byteLane, testBit_byteLane, merge_mask_testBit, testBit_ff_shl]
      by_cases hi : i < 8
      · have hmask : ¬ ((offset &&& 0b11) * 8 ≤ 8 * k + i ∧ 8 * k + i - (offset &&& 0b11) * 8 < 8) := by
          rcases Nat.lt_or_ge k (offset &&& 0b11) with hlt | hge
          · omega
          · have : offset &&& 0b11 < k := by omega
            omega
        by_cases hm1 : (offset &&& 0b11) * 8 ≤ 8 * k + i
        · have hm2 : ¬ (8 * k + i - (offset &&& 0b11) * 8 < 8) := fun h => hmask ⟨hm1, h⟩
          simp [hi, hm1, hm2, show 8 * k + i < 32 from by omega]
        · simp [hi, hm1, show 8 * k + i < 32 from by omega]
      · simp [hi]
  · -- (5) EWRAM 8/16-bit read: the aligned half-word mirrored into both halves
    intro mem bus req b hreq hop hregion hw
    unfold memHandleRequest
    rw [hreq]
    dsimp only
    rw [hop]
    rw [hregion]
    have hnot32 : req.width ≠ .bit32 := by
      rcases hw with hw | hw <;> rw [hw] <;> intro hcontra <;> cases hcontra
    cases b with
    | true =>
      dsimp only
      unfold do_ewram_rw16
      dsimp only
      rw [if_neg hnot32]
      dsimp only
      exact ⟨loHalf_mirror _ (readU16fn_lt _ _),
        (hiHalf_mirror _ (readU16fn_lt _ _)).trans (loHalf_mirror _ (readU16fn_lt _ _)).symm⟩
    | false =>
      dsimp only
      unfold do_ewram_rw16
      dsimp only
      rw [if_neg hnot32]
      dsimp only
      exact ⟨loHalf_mirror _ (readU16fn_lt _ _),
        (hiHalf_mirror _ (readU16fn_lt _ _)).trans (loHalf_mirror _ (readU16fn_lt _ _)).symm⟩
  · -- (6) EWRAM aligned 32-bit read: the word verbatim
    intro mem bus req b hreq hop hregion hw h4
    have hofflt : req.address &&& 0x3FFFF < 2 ^ 32 := by
      have := Nat.and_le_right (n := req.address) (m := 0x3FFFF)
      omega
    have hmod4 : (req.address &&& 0x3FFFF) % 4 = 0 := by
      rw [← and_three_eq_mod]
      omega
    have heven : (req.address &&& 0x3FFFF) % 2 = 0 := by omega
    have hlow : (req.address &&& 0x3FFFF) &&& 0xFFFFFFFE = req.address &&& 0x3FFFF :=
      and_fffffffe_self _ hofflt heven
    have hxor : (req.address &&& 0x3FFFF) ^^^ 2 = (req.address &&& 0x3FFFF) + 2 :=
      xor_two_of_mod_four _ hmod4
    have hhigh : ((req.address &&& 0x3FFFF) + 2) &&& 0xFFFFFFFE
        = (req.address &&& 0x3FFFF) + 2 :=
      and_fffffffe_self _ (by omega) (by omega)
    unfold memHandleRequest
    rw [hreq]
    dsimp only
    rw [hop]
    rw [hregion]
    cases b with
    | true =>
      dsimp only
      unfold do_ewram_rw16
      dsimp only
      rw [if_pos hw]
      dsimp only
      rw [hlow, hxor, hhigh]
      exact concat16_readU32fn mem.ewram _
    | false =>
      dsimp only
      unfold do_ewram_rw16
      dsimp only
      rw [if_pos hw]
      dsimp only
      rw [hlow, hxor, hhigh]
      exact concat16_readU32fn mem.ewram _

/-- C3 witness: the amended theorem's 16-bit IWRAM rule applied to the
counterexample's concrete memory at offset 0. -/
theorem memory_read_lane_rules_witness :
    loHalf (do_iwram_rw32 0 iwramSampleBytes 0 (.read false) .bit16).1
      = readU16fn iwramSampleBytes (0 &&& 0xFFFFFFFC)
    ∧ hiHalf (do_iwram_rw32 0 iwramSampleBytes 0 (.read false) .bit16).1 = hiHalf 0 :=
  memory_read_lane_rules.2.1 iwramSampleBytes 0 0 false (by decide)

theorem bufGet8_of_lt (b : Buf) (i : ℕ) (h : i < b.size) :
    bufGet8 b i = some (b.data i % 256) := by
  unfold bufGet8
  rw [if_pos h]

theorem bufGet16elem_of_lt (b : Buf) (i : ℕ) (h : i < b.size) :
    bufGet16elem b i = some (b.data i % 65536) := by
  unfold bufGet16elem
  rw [if_pos h]

theorem bufReadU16LE_of_lt (b : Buf) (i : ℕ) (h : i + 1 < b.size) :
    bufReadU16LE b i = some (b.data i % 256 ||| ((b.data (i + 1) % 256) <<< 8)) := by
  unfold bufReadU16LE
  rw [bufGet8_of_lt b i (by omega), bufGet8_of_lt b (i + 1) h]
  simp

theorem bufTake_of_le (b : Buf) (n : ℕ) (h : n ≤ b.size) :
    bufTake b n = some ⟨n, b.data⟩ := by
  unfold bufTake
  rw [if_pos h]

theorem bufDrop_of_le (b : Buf) (n : ℕ) (h : n ≤ b.size) :
    bufDrop b n = some ⟨b.size - n, fun i => b.data (n + i)⟩ := by
  unfold bufDrop
  rw [if_pos h]

theorem render_mode3_bg_pixel_total (y x : ℕ) (bg : BgAttributes) (vram : Buf)
    (hv : vram.size = 81920) : (render_mode3_bg_pixel y x bg vram).isSome = true := by
  unfold render_mode3_bg_pixel
  by_cases hguard : 160 ≤ y ∨ 240 ≤ x
  · rw [if_pos hguard]
    rfl
  · rw [if_neg hguard]
    simp [bufReadU16LE_of_lt vram ((y * 240 + x) * 2) (by omega : (y * 240 + x) * 2 + 1 < vram.size)]

theorem render_mode4_bg_pixel_total (y x : ℕ) (bg : BgAttributes) (page : ℕ)
    (vram bgPals : Buf) (hv : vram.size = 81920) (hp : bgPals.size = 256)
    (hpage : page ≤ 1) : (render_mode4_bg_pixel y x bg page vram bgPals).isSome = true := by
  unfold render_mode4_bg_pixel
  by_cases hguard : 160 ≤ y ∨ 240 ≤ x
  · rw [if_pos hguard]
    rfl
  · rw [if_neg hguard]
    simp only [bufGet8_of_lt vram (page * 0xA000 + (y * 240 + x))
        (by omega : page * 0xA000 + (y * 240 + x) < vram.size),
      bufGet16elem_of_lt bgPals (vram.data (page * 0xA000 + (y * 240 + x)) % 256)
        (by have := Nat.mod_lt (vram.data (page * 0xA000 + (y * 240 + x))) (y := 256)
              (by norm_num)
            omega),
      Option.bind_eq_bind, Option.some_bind]
    split <;> rfl

theorem render_mode5_bg_pixel_total (y x : ℕ) (bg : BgAttributes) (page : ℕ)
    (vram : Buf) (hv : vram.size = 81920) (hpage : page ≤ 1) :
    (render_mode5_bg_pixel y x bg page vram).isSome = true := by
  unfold render_mode5_bg_pixel
  by_cases hguard : 128 ≤ y ∨ 160 ≤ x
  · rw [if_pos hguard]
    rfl
  · rw [if_neg hguard]
    simp [bufReadU16LE_of_lt vram (page * 0xA000 + (y * 160 + x) * 2)
      (by omega : page * 0xA000 + (y * 160 + x) * 2 + 1 < vram.size)]

theorem candidate_layers_total (regs : LcdControllerRegs) (bgVram bgPals bitmapVram : Buf)
    (y x : ℕ) (hb : bitmapVram.size = 81920) (hp : bgPals.size = 256)
    (hpage : regs.activeDisplayPage ≤ 1) (hmode : 3 ≤ regs.videoMode)
    (hmode7 : regs.videoMode ≤ 7) :
    ∃ layers, candidate_layers y x regs bgVram bgPals bitmapVram = some layers
      ∧ some (backdropLayer (bgPals.data 0 % 65536)) ∈ layers := by
  obtain h3 | h4 | h5 | h6 | h7 : regs.videoMode = 3 ∨ regs.videoMode = 4
      ∨ regs.videoMode = 5 ∨ regs.videoMode = 6 ∨ regs.videoMode = 7 := by omega
  · unfold candidate_layers
    rw [h3]
    dsimp only [Option.bind_eq_bind]
    unfold render_mode3_backgrounds
    by_cases hen : regs.bgLayerEnabled 2 = true
    · rw [if_pos hen]
      obtain ⟨l, hl⟩ := Option.isSome_iff_exists.mp
        (render_mode3_bg_pixel_total y x (regs.bgAttributes 2) bitmapVram hb)
      rw [hl, bufGet16elem_of_lt bgPals 0 (by omega)]
      refine ⟨(([none, none, none, none, none, none].set 2 l).set 5
        (some (backdropLayer (bgPals.data 0 % 65536)))), by simp [backdropLayer], by simp [List.set]⟩
    · rw [if_neg hen]
      rw [bufGet16elem_of_lt bgPals 0 (by omega)]
      refine ⟨([none, none, none, none, none, none].set 5
        (some (backdropLayer (bgPals.data 0 % 65536)))), by simp [backdropLayer], by simp [List.set]⟩
  · unfold candidate_layers
    rw [h4]
    dsimp only [Option.bind_eq_bind]
    unfold render_mode4_backgrounds
    by_cases hen : regs.bgLayerEnabled 2 = true
    · rw [if_pos hen]
      obtain ⟨l, hl⟩ := Option.isSome_iff_exists.mp
        (render_mode4_bg_pixel_total y x (regs.bgAttributes 2) regs.activeDisplayPage
          bitmapVram bgPals hb hp hpage)
      rw [hl, bufGet16elem_of_lt bgPals 0 (by omega)]
      refine ⟨(([none, none, none, none, none, none].set 2 l).set 5
        (some (backdropLayer (bgPals.data 0 % 65536)))), by simp [backdropLayer], by simp [List.set]⟩
    · rw [if_neg hen]
      rw [bufGet16elem_of_lt bgPals 0 (by omega)]
      refine ⟨([none, none, none, none, none, none].set 5
        (some (backdropLayer (bgPals.data 0 % 65536)))), by simp [backdropLayer], by simp [List.set]⟩
  · unfold candidate_layers
    rw [h5]
    dsimp only [Option.bind_eq_bind]
    unfold render_mode5_backgrounds
    by_cases hen : regs.bgLayerEnabled 2 = true
    · rw [if_pos hen]
      obtain ⟨l, hl⟩ := Option.isSome_iff_exists.mp
        (render_mode5_bg_pixel_total y x (regs.bgAttributes 2) regs.activeDisplayPage
          bitmapVram hb hpage)
      rw [hl, bufGet16elem_of_lt bgPals 0 (by omega)]
      refine ⟨(([none, none, none, none, none, none].set 2 l).set 5
        (some (backdropLayer (bgPals.data 0 % 65536)))), by simp [backdropLayer], by simp [List.set]⟩
    · rw [if_neg hen]
      rw [bufGet16elem_of_lt bgPals 0 (by omega)]
      refine ⟨([none, none, none, none, none, none].set 5
        (some (backdropLayer (bgPals.data 0 % 65536)))), by simp [backdropLayer], by simp [List.set]⟩
  · unfold candidate_layers
    rw [h6]
    dsimp only [Option.bind_eq_bind]
    rw [bufGet16elem_of_lt bgPals 0 (by omega)]
    refine ⟨([none, none, none, none, none, none].set 5
      (some (backdropLayer (bgPals.data 0 % 65536)))), by simp [backdropLayer], by simp [List.set]⟩
  · unfold candidate_layers
    rw [h7]
    dsimp only [Option.bind_eq_bind]
    rw [bufGet16elem_of_lt bgPals 0 (by omega)]
    refine ⟨([none, none, none, none, none, none].set 5
      (some (backdropLayer (bgPals.data 0 % 65536)))), by simp [backdropLayer], by simp [List.set]⟩

theorem renderLcdPixel_total (regs : LcdControllerRegs) (bgVram bgPals bitmapVram : Buf)
    (y x : ℕ) (hb : bitmapVram.size = 81920) (hp : bgPals.size = 256)
    (hpage : regs.activeDisplayPage ≤ 1) (hmode : 3 ≤ regs.videoMode)
    (hmode7 : regs.videoMode ≤ 7) :
    (renderLcdPixel y x regs bgVram bgPals bitmapVram).isSome = true := by
  obtain ⟨layers, hcand, hmem⟩ :=
    candidate_layers_total regs bgVram bgPals bitmapVram y x hb hp hpage hmode hmode7
  obtain ⟨top, second, hpick⟩ := pick_top_two_layers_isSome layers _ hmem
  unfold renderLcdPixel
  rw [hcand]
  dsimp only [Option.bind_eq_bind, Option.some_bind]
  rw [hpick]
  rfl

theorem renderLcdPixel_mode5_backdrop (regs : LcdControllerRegs)
    (bgVram bgPals bitmapVram : Buf) (y x : ℕ)
    (h5 : regs.videoMode = 5) (hx : 160 ≤ x) (hp : bgPals.size = 256) :
    renderLcdPixel y x regs bgVram bgPals bitmapVram = some (bgPals.data 0 % 65536) := by
  unfold renderLcdPixel candidate_layers
  rw [h5]
  dsimp only [Option.bind_eq_bind]
  unfold render_mode5_backgrounds
  by_cases hen : regs.bgLayerEnabled 2 = true
  · rw [if_pos hen]
    unfold render_mode5_bg_pixel
    rw [if_pos (Or.inr hx)]
    rw [bufGet16elem_of_lt bgPals 0 (by omega)]
    rfl
  · rw [if_neg hen]
    rw [bufGet16elem_of_lt bgPals 0 (by omega)]
    rfl

set_option maxRecDepth 4000 in
/-- C9 counterexample: the claim states that `render_lcd_line` is total
(never faults) for every LCD register state, scanline in range, a 96 KiB
VRAM and a 512-entry palette. A register state with `video_mode = 2` is
reachable (DISPCNT bits 0-2), and the source hits `unimplemented!()` for
it before looking at anything else, so rendering scanline 0 with an
all-zero 96 KiB VRAM and 512-entry palette panics instead of producing a
line. -/
theorem render_mode2_faults_counterexample :
    render_lcd_line 0 regsMode2 vram0 pals0 = none := by rfl

/-- C9 amended: `render_lcd_line` is total for the bitmap and invalid
video modes (3-7, for DISPCNT-reachable register state, so
`active_display_page ≤ 1`), every scanline `y < 160`, a 96 KiB VRAM and
a 512-entry palette; in those modes out-of-range bitmap coordinates
yield transparent pixels so the backdrop (`palette[0]`) shows through,
e.g. mode 5 pixels with `x ≥ 160`. In video mode 2 the renderer aborts
(`unimplemented!`), and in the text modes 0-1 out-of-bounds VRAM indices
arising from `map_base`/`char_base`/`size_mode` are not clamped: the
slice indexing faults. -/
theorem render_total_bitmap_modes (regs : LcdControllerRegs) (vram pals : Buf) (y : ℕ)
    (hv : vram.size = 98304) (hp : pals.size = 512)
    (hpage : regs.activeDisplayPage ≤ 1) (hmode : 3 ≤ regs.videoMode)
    (hmode7 : regs.videoMode ≤ 7) (hy : y < 160) :
    (render_lcd_line y regs vram pals).isSome = true
    ∧ (regs.videoMode = 5 → ∀ x buf, 160 ≤ x → x < 240 →
        render_lcd_line y regs vram pals = some buf →
        buf.get? x = some (pals.data 0 % 65536)) := by
  have ht1 := bufTake_of_le vram (64 * 1024) (by omega)
  have ht2 := bufTake_of_le pals (16 * 16) (by omega)
  have ht3 := bufDrop_of_le vram (64 * 1024) (by omega)
  have ht4 := bufTake_of_le vram (80 * 1024) (by omega)
  constructor
  · unfold render_lcd_line
    rw [ht1, ht2, ht3, ht4]
    dsimp only [Option.bind_eq_bind, Option.some_bind]
    exact optionMapRange_isSome _ 240 (fun k _ =>
      renderLcdPixel_total regs ⟨64 * 1024, vram.data⟩ ⟨16 * 16, pals.data⟩
        ⟨80 * 1024, vram.data⟩ y k rfl rfl hpage hmode hmode7)
  · intro hm5 x buf hx1 _ hbuf
    unfold render_lcd_line at hbuf
    rw [ht1, ht2, ht3, ht4] at hbuf
    dsimp only [Option.bind_eq_bind, Option.some_bind] at hbuf
    obtain ⟨_, hget⟩ := optionMapRange_get? _ 240 buf hbuf
    rw [hget x (by omega),
      renderLcdPixel_mode5_backdrop regs ⟨64 * 1024, vram.data⟩ ⟨16 * 16, pals.data⟩
        ⟨80 * 1024, vram.data⟩ y x hm5 hx1 rfl]

/-- C9 witness: mode 5 with bg2 enabled, all-zero VRAM and palette,
scanline 0: the line renders, and the amended out-of-range statement is
available at those inputs. -/
theorem render_total_bitmap_modes_witness :
    (render_lcd_line 0 regsMode5 vram0 pals0).isSome = true
    ∧ (regsMode5.videoMode = 5 → ∀ x buf, 160 ≤ x → x < 240 →
        render_lcd_line 0 regsMode5 vram0 pals0 = some buf →
        buf.get? x = some (pals0.data 0 % 65536)) :=
  render_total_bitmap_modes regsMode5 vram0 pals0 0 (by decide) (by decide) (by decide)
    (by decide) (by decide) (by decide)

theorem candidate_layers_all_disabled (regs : LcdControllerRegs)
    (bgVram bgPals bitmapVram : Buf) (y x : ℕ) (layers : List (Option Layer))
    (hdis : ∀ i, i < 4 → regs.bgLayerEnabled i = false)
    (hcand : candidate_layers y x regs bgVram bgPals bitmapVram = some layers) :
    ∃ c, bufGet16elem bgPals 0 = some c
      ∧ layers = [none, none, none, none, none, some (backdropLayer c)] := by
  have hd0 := hdis 0 (by omega)
  have hd1 := hdis 1 (by omega)
  have hd2 := hdis 2 (by omega)
  have hd3 := hdis 3 (by omega)
  unfold candidate_layers at hcand
  obtain h0 | h1 | h2 | h3 | h4 | h5 | h6 : regs.videoMode = 0 ∨ regs.videoMode = 1
      ∨ regs.videoMode = 2 ∨ regs.videoMode = 3 ∨ regs.videoMode = 4
      ∨ regs.videoMode = 5 ∨ 6 ≤ regs.videoMode := by omega
  · rw [h0] at hcand
    simp only [render_mode0_backgrounds, renderTextBgStep, hd0, hd1, hd2, hd3,
      Bool.false_eq_true, if_false, Option.bind_eq_bind, Option.some_bind,
      Option.pure_def] at hcand
    rcases hbd : bufGet16elem bgPals 0 with _ | c
    · rw [hbd] at hcand
      simp at hcand
    · rw [hbd] at hcand
      simp only [Option.some_bind, Option.some.injEq] at hcand
      exact ⟨c, rfl, hcand.symm⟩
  · rw [h1] at hcand
    simp only [render_mode1_backgrounds, renderTextBgStep, hd0, hd1,
      Bool.false_eq_true, if_false, Option.bind_eq_bind, Option.some_bind,
      Option.pure_def] at hcand
    rcases hbd : bufGet16elem bgPals 0 with _ | c
    · rw [hbd] at hcand
      simp at hcand
    · rw [hbd] at hcand
      simp only [Option.some_bind, Option.some.injEq] at hcand
      exact ⟨c, rfl, hcand.symm⟩
  · rw [h2] at hcand
    simp at hcand
  · rw [h3] at hcand
    simp only [render_mode3_backgrounds, hd2, Bool.false_eq_true, if_false,
      Option.bind_eq_bind, Option.some_bind, Option.pure_def] at hcand
    rcases hbd : bufGet16elem bgPals 0 with _ | c
    · rw [hbd] at hcand
      simp at hcand
    · rw [hbd] at hcand
      simp only [Option.some_bind, Option.some.injEq] at hcand
      exact ⟨c, rfl, hcand.symm⟩
  · rw [h4] at hcand
    simp only [render_mode4_backgrounds, hd2, Bool.false_eq_true, if_false,
      Option.bind_eq_bind, Option.some_bind, Option.pure_def] at hcand
    rcases hbd : bufGet16elem bgPals 0 with _ | c
    · rw [hbd] at hcand
      simp at hcand
    · rw [hbd] at hcand
      simp only [Option.some_bind, Option.some.injEq] at hcand
      exact ⟨c, rfl, hcand.symm⟩
  · rw [h5] at hcand
    simp only [render_mode5_backgrounds, hd2, Bool.false_eq_true, if_false,
      Option.bind_eq_bind, Option.some_bind, Option.pure_def] at hcand
    rcases hbd : bufGet16elem bgPals 0 with _ | c
    · rw [hbd] at hcand
      simp at hcand
    · rw [hbd] at hcand
      simp only [Option.some_bind, Option.some.injEq] at hcand
      exact ⟨c, rfl, hcand.symm⟩
  · obtain ⟨k, hk⟩ : ∃ k, regs.videoMode = k + 6 := ⟨regs.videoMode - 6, by omega⟩
    rw [hk] at hcand
    simp only [Option.bind_eq_bind, Option.some_bind, Option.pure_def] at hcand
    rcases hbd : bufGet16elem bgPals 0 with _ | c
    · rw [hbd] at hcand
      simp at hcand
    · rw [hbd] at hcand
      simp only [Option.some_bind, Option.pure_def, Option.some.injEq] at hcand
      exact ⟨c, rfl, hcand.symm⟩

/-- C8: for every pixel produced by `render_lcd_line`, the chosen top
layer's priority is ≤ the priority of every other candidate layer at that
pixel, and the top layer is the first (in the slot order obj, bg0, bg1,
bg2, bg3, backdrop) among the candidates attaining the minimal priority —
ties are broken by layer order; and when all four BG layers are disabled,
every output pixel equals `palette[0]` (the backdrop color). -/
theorem top_layer_priority_minimal (regs : LcdControllerRegs) (vram pals : Buf) (y x : ℕ)
    (buf : List ℕ) (hr : render_lcd_line y regs vram pals = some buf) (hx : x < 240) :
    ∃ bgVram bgPals bitmapVram layers top second,
      bufTake vram (64 * 1024) = some bgVram
      ∧ bufTake pals (16 * 16) = some bgPals
      ∧ bufTake vram (80 * 1024) = some bitmapVram
      ∧ candidate_layers y x regs bgVram bgPals bitmapVram = some layers
      ∧ pick_top_two_layers layers = some (top, second)
      ∧ buf.get? x = some top.color
      ∧ (∀ l ∈ layers.filterMap id, top.priority ≤ l.priority)
      ∧ (∃ i, (layers.filterMap id).get? i = some top
          ∧ ∀ j, j < i → ∀ l', (layers.filterMap id).get? j = some l' →
              top.priority < l'.priority)
      ∧ ((∀ i, i < 4 → regs.bgLayerEnabled i = false) →
          top.color = bgPals.data 0 % 65536) := by
  unfold render_lcd_line at hr
  simp only [Option.bind_eq_bind, Option.bind_eq_some] at hr
  obtain ⟨bgVram, h1, bgPals, h2, objVram, h3, bitmapVram, h4, hmap⟩ := hr
  obtain ⟨hlen, hget⟩ := optionMapRange_get? _ 240 buf hmap
  rcases hc : buf.get? x with _ | c
  · have := List.get?_eq_none.mp hc
    omega
  · have hpix : renderLcdPixel y x regs bgVram bgPals bitmapVram = some c := by
      have h := hget x hx
      rw [hc] at h
      exact h.symm
    unfold renderLcdPixel at hpix
    simp only [Option.bind_eq_bind, Option.bind_eq_some] at hpix
    obtain ⟨layers, hcand, p, hpick, hcol⟩ := hpix
    obtain ⟨top, second⟩ := p
    simp only [Option.pure_def, Option.some.injEq] at hcol
    obtain ⟨hmin, hleft⟩ := pick_top_two_layers_spec layers top second hpick
    refine ⟨bgVram, bgPals, bitmapVram, layers, top, second, h1, h2, h4, hcand, hpick,
      by rw [hcol], hmin, hleft, ?_⟩
    intro hdis
    obtain ⟨cbd, hbd, hlayers⟩ :=
      candidate_layers_all_disabled regs bgVram bgPals bitmapVram y x layers hdis hcand
    rw [hlayers] at hpick
    rw [show pick_top_two_layers [none, none, none, none, none, some (backdropLayer cbd)]
        = some (backdropLayer cbd, none) from rfl] at hpick
    have hts := Option.some.inj hpick
    have htop : top = backdropLayer cbd := (congrArg Prod.fst hts).symm
    unfold bufGet16elem at hbd
    split at hbd
    · have hcbd := Option.some.inj hbd
      rw [htop, ← hcbd]
      rfl
    · cases hbd

set_option maxRecDepth 8000 in
/-- C8 witness: the theorem applied to the default register state (mode
0, all BG layers disabled), all-zero VRAM and palette, scanline 0, pixel
0 — the rendered line is 240 zero pixels and the top layer is the
backdrop. -/
theorem top_layer_priority_minimal_witness :
    ∃ bgVram bgPals bitmapVram layers top second,
      bufTake vram0 (64 * 1024) = some bgVram
      ∧ bufTake pals0 (16 * 16) = some bgPals
      ∧ bufTake vram0 (80 * 1024) = some bitmapVram
      ∧ candidate_layers 0 0 LcdControllerRegs.new bgVram bgPals bitmapVram = some layers
      ∧ pick_top_two_layers layers = some (top, second)
      ∧ (List.replicate 240 0).get? 0 = some top.color
      ∧ (∀ l ∈ layers.filterMap id, top.priority ≤ l.priority)
      ∧ (∃ i, (layers.filterMap id).get? i = some top
          ∧ ∀ j, j < i → ∀ l', (layers.filterMap id).get? j = some l' →
              top.priority < l'.priority)
      ∧ ((∀ i, i < 4 → LcdControllerRegs.new.bgLayerEnabled i = false) →
          top.color = bgPals.data 0 % 65536) :=
  top_layer_priority_minimal LcdControllerRegs.new vram0 pals0 0 0 (List.replicate 240 0)
    (by decide) (by decide)
